import Mathlib

/-!
Verification of the PolyEdge trading-control core against its specification.

The Python source is shallowly embedded: Python floats are modelled as exact
rationals, Python None as Option, Python dicts keyed by unique ids as
association lists updated at the first matching key, and wall-clock reads
(time.time, datetime.now) as explicit time parameters threaded through the
operations.  Cryptographic digests (SHA-256 and HMAC-SHA-256) are modelled as
an uninterpreted function parameter called mac or sha: the properties under
study concern the control flow around the digest calls and the exact byte
strings or canonical records being digested, never any property of SHA-256
itself.
-/

namespace PolyEdge

/-! ## Locked constants (polyedge/constants.py) -/

def AI_CAP_USD_USER : ℚ := 2
def AI_CAP_PCT_PER_DAY_DEFAULT : ℚ := 0.005
def AI_WINDOW_SEC : ℚ := 600
def AI_WINDOW_CAP_PCT_OF_DAILY : ℚ := 0.20
def AI_ANALYSES_PER_DAY_HARD_CAP : ℕ := 100

def PAPER_FEE_MULTIPLIER : ℚ := 2
def PAPER_MIN_FEE_BPS : ℚ := 10

def CANDIDATE_MAX_AGE_SEC : ℚ := 120
def TRIGGER_PERSIST_UPDATES : ℕ := 3
def TRIGGER_PERSIST_MIN_SEC : ℚ := 6

def ARMING_NONCE1_TTL_SEC : ℚ := 120
def ARMING_FILE_MAX_AGE_SEC : ℚ := 900

def TIME_TO_RESOLUTION_MIN_SEC : ℚ := 3600
def TIME_TO_RESOLUTION_MAX_SEC : ℚ := 90 * 86400
def MIN_VOLUME_24H_USD : ℚ := 500
def MIN_LIQUIDITY_USD : ℚ := 1000
def MAX_SPREAD_ABS : ℚ := 0.03
def MIN_DEPTH_USD_NEAR_TOP : ℚ := 50
def BOOK_LEVELS_REQUIRED : ℕ := 3

def ASK_SUM_LOW : ℚ := 0.98
def ASK_SUM_HIGH : ℚ := 2.00

def W_AI_MAX : ℚ := 0.35
def DELTA_MAX_DEFAULT : ℚ := 0.10
def DELTA_MAX_HIGH_DISPUTE : ℚ := 0.05
def P_EFF_OUTLIER_THRESHOLD : ℚ := 0.20

def EV_MIN : ℚ := 0.01

def MAX_MARKET_SNAPSHOT_AGE_DECISION_SEC : ℤ := 6
def MAX_MARKET_SNAPSHOT_AGE_EXEC_SEC : ℤ := 3
def WS_HEARTBEAT_SEC : ℤ := 10

/-! ## Snapshot anomaly detectors (polyedge/snapshots.py) -/

/-- Embeds detect_ask_sum_anomaly: True if an ask is missing or the ask sum
leaves the band given by ASK_SUM_LOW and ASK_SUM_HIGH. -/
def detect_ask_sum_anomaly (best_ask_yes best_ask_no : Option ℚ) : Bool :=
  match best_ask_yes, best_ask_no with
  | some ay, some an => decide (ay + an < ASK_SUM_LOW) || decide (ASK_SUM_HIGH < ay + an)
  | _, _ => true

/-- Embeds detect_invalid_book_anomaly: True if a best price is missing, a
price is outside the open interval (0, 1), or a bid exceeds its ask. -/
def detect_invalid_book_anomaly
    (best_bid_yes best_ask_yes best_bid_no best_ask_no : Option ℚ) : Bool :=
  match best_bid_yes, best_ask_yes, best_bid_no, best_ask_no with
  | some bb_y, some ba_y, some bb_n, some ba_n =>
      decide (bb_y ≤ 0) || decide (1 ≤ bb_y) ||
      decide (ba_y ≤ 0) || decide (1 ≤ ba_y) ||
      decide (bb_n ≤ 0) || decide (1 ≤ bb_n) ||
      decide (ba_n ≤ 0) || decide (1 ≤ ba_n) ||
      decide (ba_y < bb_y) || decide (ba_n < bb_n)
  | _, _, _, _ => true

/-! ## Calibration (polyedge/calibration.py) -/

def REASON_P_EFF_OUTLIER : String := "P_EFF_OUTLIER"

/-- Effective delta bound chosen inside compute_p_eff from the dispute risk. -/
def delta_max_for (dispute_risk : ℚ) : ℚ :=
  if 0.7 ≤ dispute_risk then DELTA_MAX_HIGH_DISPUTE else DELTA_MAX_DEFAULT

/-- Embeds compute_p_eff.  The blend is clamped to within delta_max of
p_market; the outlier test in the source inspects the deviation after that
clamp, and the [0, 1] clamp runs only on the non-outlier path, exactly as in
the source. -/
def compute_p_eff (p_market p_ai_cal w_ai dispute_risk : ℚ) : ℚ × Option String :=
  let p_eff0 := p_market + w_ai * (p_ai_cal - p_market)
  let delta_max := delta_max_for dispute_risk
  let delta := p_eff0 - p_market
  let p_eff1 :=
    if delta_max < |delta| then
      (if 0 < delta then p_market + delta_max else p_market - delta_max)
    else p_eff0
  if P_EFF_OUTLIER_THRESHOLD < |p_eff1 - p_market| then
    (p_eff1, some REASON_P_EFF_OUTLIER)
  else
    (max 0 (min 1 p_eff1), none)

/-! ## Snapshots and WS state (polyedge/snapshots.py, polyedge/ws_client.py) -/

/-- Embeds the Snapshot record.  Prices are rationals, timestamps are integer
unix milliseconds, the orderbook hash bytes are carried opaquely (no embedded
operation reads them). -/
structure Snapshot where
  snapshot_id : String
  market_id : String
  snapshot_at_unix_ms : ℤ
  snapshot_source : String
  snapshot_ws_epoch : ℤ
  ws_last_message_unix_ms : ℤ
  market_last_ws_update_unix_ms : Option ℤ
  orderbook_last_change_unix_ms : Option ℤ
  best_bid_yes : Option ℚ
  best_ask_yes : Option ℚ
  best_bid_no : Option ℚ
  best_ask_no : Option ℚ
  depth_yes : List (ℚ × ℚ)
  depth_no : List (ℚ × ℚ)
  orderbook_hash : List ℕ
  ask_sum_anomaly : Bool
  invalid_book_anomaly : Bool
deriving DecidableEq

/-- Embeds WSState (the per-market map is not consulted by the embedded
health predicate). -/
structure WSState where
  ws_connected : Bool
  ws_last_message_unix_ms : ℤ
  current_ws_epoch : ℤ
deriving DecidableEq

/-! ## WS health predicates (polyedge/ws_health.py)

The source appends a formatted reason string per failing check; the embedding
keeps one fixed string per check (the interpolated numbers are dropped, which
claims here never inspect).  The wall-clock read _now_ms() becomes the
explicit now_ms parameter. -/

def ws_healthy_core (market_id : String) (snap : Snapshot) (ws : WSState)
    (max_age_sec : ℤ) (now_ms : ℤ) : Bool × List String :=
  let r1 : List String := if ws.ws_connected then [] else ["ws_connected is false"]
  let r2 : List String :=
    if WS_HEARTBEAT_SEC * 1000 < now_ms - ws.ws_last_message_unix_ms
    then ["ws_last_message stale"] else []
  let r3 : List String :=
    if snap.snapshot_source = "WS" then [] else ["snapshot_source is not WS"]
  let r4 : List String :=
    if snap.snapshot_ws_epoch = ws.current_ws_epoch then [] else ["epoch mismatch"]
  let r5 : List String :=
    if snap.market_id = market_id then [] else ["market_id mismatch"]
  let r6 : List String :=
    match snap.market_last_ws_update_unix_ms with
    | none => ["market_last_ws_update_unix_ms is null or nonpositive"]
    | some t =>
        if t ≤ 0 then ["market_last_ws_update_unix_ms is null or nonpositive"]
        else if max_age_sec * 1000 < now_ms - t then ["market_last_ws_update stale"] else []
  let r7 : List String :=
    match snap.orderbook_last_change_unix_ms with
    | none => ["orderbook_last_change_unix_ms is null or nonpositive"]
    | some t =>
        if t ≤ 0 then ["orderbook_last_change_unix_ms is null or nonpositive"]
        else if max_age_sec * 1000 < now_ms - t then ["orderbook_last_change stale"] else []
  let r8 : List String :=
    if snap.ws_last_message_unix_ms < snap.snapshot_at_unix_ms
    then ["ws_last_message before snapshot_at"] else []
  let reasons := r1 ++ r2 ++ r3 ++ r4 ++ r5 ++ r6 ++ r7 ++ r8
  (decide (reasons.length = 0), reasons)

def ws_healthy_decision (market_id : String) (snap : Snapshot) (ws : WSState)
    (now_ms : ℤ) : Bool × List String :=
  ws_healthy_core market_id snap ws MAX_MARKET_SNAPSHOT_AGE_DECISION_SEC now_ms

/-! ## Coarse filters (polyedge/filters.py)

The candidate and market dict views carry exactly the keys the filters read;
a missing or null key is Option.none.  Timestamps handled as datetimes in the
source are rational unix seconds here (the string-parsing branches of the
source apply to the same instants). -/

def REASON_CANDIDATE_EXPIRED : String := "CANDIDATE_EXPIRED"
def REASON_MARKET_NOT_ELIGIBLE : String := "MARKET_NOT_ELIGIBLE"
def REASON_TIME_TO_RESOLUTION_OUT_OF_RANGE : String := "TIME_TO_RESOLUTION_OUT_OF_RANGE"
def REASON_VOLUME_TOO_LOW : String := "VOLUME_TOO_LOW"
def REASON_LIQUIDITY_TOO_LOW : String := "LIQUIDITY_TOO_LOW"
def REASON_SNAPSHOT_INVALID_BOOK : String := "SNAPSHOT_INVALID_BOOK"
def REASON_SNAPSHOT_ASK_SUM_ANOMALY : String := "SNAPSHOT_ASK_SUM_ANOMALY"
def REASON_SPREAD_TOO_WIDE : String := "SPREAD_TOO_WIDE"
def REASON_DEPTH_TOO_THIN : String := "DEPTH_TOO_THIN"
def REASON_WS_UNHEALTHY_DECISION : String := "WS_UNHEALTHY_DECISION"

structure CandidateView where
  market_id : String
  created_at_utc : Option ℚ
deriving DecidableEq

structure MarketView where
  is_binary_eligible : Bool
  end_date_utc : Option ℚ
  volume_24h_usd : Option ℚ
  liquidity_usd : Option ℚ
deriving DecidableEq

def filter_candidate_age (c : CandidateView) (now_utc : ℚ) : Option String :=
  match c.created_at_utc with
  | none => some REASON_CANDIDATE_EXPIRED
  | some created =>
      if CANDIDATE_MAX_AGE_SEC < now_utc - created then some REASON_CANDIDATE_EXPIRED
      else none

def filter_market_eligible (m : MarketView) : Option String :=
  if m.is_binary_eligible then none else some REASON_MARKET_NOT_ELIGIBLE

def filter_time_to_resolution (m : MarketView) (now_utc : ℚ) : Option String :=
  match m.end_date_utc with
  | none => some REASON_TIME_TO_RESOLUTION_OUT_OF_RANGE
  | some end_date =>
      let remaining := end_date - now_utc
      if remaining < TIME_TO_RESOLUTION_MIN_SEC ∨ TIME_TO_RESOLUTION_MAX_SEC < remaining
      then some REASON_TIME_TO_RESOLUTION_OUT_OF_RANGE
      else none

def filter_volume (m : MarketView) : Option String :=
  if (m.volume_24h_usd.getD 0) < MIN_VOLUME_24H_USD then some REASON_VOLUME_TOO_LOW
  else none

def filter_liquidity (m : MarketView) : Option String :=
  if (m.liquidity_usd.getD 0) < MIN_LIQUIDITY_USD then some REASON_LIQUIDITY_TOO_LOW
  else none

def filter_invalid_book (s : Snapshot) : Option String :=
  if s.invalid_book_anomaly then some REASON_SNAPSHOT_INVALID_BOOK else none

def filter_ask_sum_anomaly (s : Snapshot) : Option String :=
  if s.ask_sum_anomaly then some REASON_SNAPSHOT_ASK_SUM_ANOMALY else none

def filter_spread (s : Snapshot) : Option String :=
  let yes_wide :=
    match s.best_bid_yes, s.best_ask_yes with
    | some bid, some ask => decide (MAX_SPREAD_ABS < ask - bid)
    | _, _ => false
  let no_wide :=
    match s.best_bid_no, s.best_ask_no with
    | some bid, some ask => decide (MAX_SPREAD_ABS < ask - bid)
    | _, _ => false
  if yes_wide then some REASON_SPREAD_TOO_WIDE
  else if no_wide then some REASON_SPREAD_TOO_WIDE
  else none

def top_depth_usd (levels : List (ℚ × ℚ)) : ℚ :=
  ((levels.take BOOK_LEVELS_REQUIRED).map Prod.snd).sum

def filter_depth (s : Snapshot) : Option String :=
  if top_depth_usd s.depth_yes < MIN_DEPTH_USD_NEAR_TOP ∨
     top_depth_usd s.depth_no < MIN_DEPTH_USD_NEAR_TOP
  then some REASON_DEPTH_TOO_THIN
  else none

def filter_ws_health (market_id : String) (s : Snapshot) (ws : WSState)
    (now_ms : ℤ) : Option String :=
  if (ws_healthy_decision market_id s ws now_ms).1 then none
  else some REASON_WS_UNHEALTHY_DECISION

/-- Embeds run_all_filters.  The ws_state argument is optional in the source
signature; filter 10 runs only under `if ws_state is not None`. -/
def run_all_filters (c : CandidateView) (m : MarketView) (s : Snapshot)
    (ws_state : Option WSState) (now_utc : ℚ) (now_ms : ℤ) : Bool × Option String :=
  match filter_candidate_age c now_utc with
  | some reason => (false, some reason)
  | none =>
  match filter_market_eligible m with
  | some reason => (false, some reason)
  | none =>
  match filter_time_to_resolution m now_utc with
  | some reason => (false, some reason)
  | none =>
  match filter_volume m with
  | some reason => (false, some reason)
  | none =>
  match filter_liquidity m with
  | some reason => (false, some reason)
  | none =>
  match filter_invalid_book s with
  | some reason => (false, some reason)
  | none =>
  match filter_ask_sum_anomaly s with
  | some reason => (false, some reason)
  | none =>
  match filter_spread s with
  | some reason => (false, some reason)
  | none =>
  match filter_depth s with
  | some reason => (false, some reason)
  | none =>
  match ws_state with
  | none => (true, none)
  | some ws =>
      match filter_ws_health c.market_id s ws now_ms with
      | some reason => (false, some reason)
      | none => (true, none)

/-- Stated from the claim: the first nine filters alone, in source order,
with no WS-health stage.  Used to express that run_all_filters with
ws_state = None coincides with it. -/
def run_first_nine_filters (c : CandidateView) (m : MarketView) (s : Snapshot)
    (now_utc : ℚ) : Bool × Option String :=
  match filter_candidate_age c now_utc with
  | some reason => (false, some reason)
  | none =>
  match filter_market_eligible m with
  | some reason => (false, some reason)
  | none =>
  match filter_time_to_resolution m now_utc with
  | some reason => (false, some reason)
  | none =>
  match filter_volume m with
  | some reason => (false, some reason)
  | none =>
  match filter_liquidity m with
  | some reason => (false, some reason)
  | none =>
  match filter_invalid_book s with
  | some reason => (false, some reason)
  | none =>
  match filter_ask_sum_anomaly s with
  | some reason => (false, some reason)
  | none =>
  match filter_spread s with
  | some reason => (false, some reason)
  | none =>
  match filter_depth s with
  | some reason => (false, some reason)
  | none => (true, none)

/-! ## AI budget manager (polyedge/budget.py)

Reservations live in an association list keyed by reservation_id; the source
keys a dict by fresh uuid4 strings, so updates touch the first (only)
matching entry.  The generated uuid becomes an explicit rid argument of
reserve.  All operations are taken within one UTC day, so the
_check_day_rollover resets do not fire and are omitted.  A Python raise of
BudgetDeniedError becomes an Except.error paired with the unchanged manager,
mirroring that the source raises before any mutation. -/

inductive ResStatus
  | reserved
  | settled
  | force_settled
  | released
deriving DecidableEq

structure Reservation where
  reservation_id : String
  model_key : String
  reserved_usd : ℚ
  actual_usd : Option ℚ
  status : ResStatus
  correlation_id : String
  ts_utc : ℚ
  expires_at : ℚ
deriving DecidableEq

def DEFAULT_RESERVATION_EXPIRY_SEC : ℚ := 120

structure BudgetManager where
  wallet_usd : ℚ
  daily_cap : ℚ
  window_cap : ℚ
  spent_usd : ℚ
  in_flight_usd : ℚ
  reservations : List Reservation
  correlation_ids_today : List String
  force_settle_count_today : ℕ
deriving DecidableEq

def compute_daily_cap (wallet_usd : ℚ) : ℚ :=
  min AI_CAP_USD_USER (wallet_usd * AI_CAP_PCT_PER_DAY_DEFAULT)

def compute_window_cap (daily_cap : ℚ) : ℚ :=
  daily_cap * AI_WINDOW_CAP_PCT_OF_DAILY

def mkBudgetManager (wallet_usd : ℚ) : BudgetManager :=
  { wallet_usd := wallet_usd
    daily_cap := compute_daily_cap wallet_usd
    window_cap := compute_window_cap (compute_daily_cap wallet_usd)
    spent_usd := 0
    in_flight_usd := 0
    reservations := []
    correlation_ids_today := []
    force_settle_count_today := 0 }

def findRes (bm : BudgetManager) (rid : String) : Option Reservation :=
  bm.reservations.find? (fun r => r.reservation_id == rid)

/-- Updates the first reservation whose id matches, mirroring a keyed dict
write (ids are unique in the source because uuid4 generates them). -/
def updateRes (rs : List Reservation) (rid : String) (f : Reservation → Reservation) :
    List Reservation :=
  match rs with
  | [] => []
  | r :: rest =>
      if r.reservation_id == rid then f r :: rest else r :: updateRes rest rid f

def window_sum (bm : BudgetManager) (now : ℚ) : ℚ :=
  ((bm.reservations.filter
      (fun r => decide (r.status = ResStatus.reserved) &&
                decide (now - AI_WINDOW_SEC ≤ r.ts_utc))).map
    (fun r => r.reserved_usd)).sum

def reserve (bm : BudgetManager) (model_key : String) (worst_case_usd : ℚ)
    (correlation_id rid : String) (now : ℚ) :
    Except Unit String × BudgetManager :=
  if bm.daily_cap < bm.spent_usd + bm.in_flight_usd + worst_case_usd then
    (Except.error (), bm)
  else if bm.window_cap < window_sum bm now + worst_case_usd then
    (Except.error (), bm)
  else if AI_ANALYSES_PER_DAY_HARD_CAP ≤ bm.correlation_ids_today.length &&
          !(bm.correlation_ids_today.contains correlation_id) then
    (Except.error (), bm)
  else
    let r : Reservation :=
      { reservation_id := rid
        model_key := model_key
        reserved_usd := worst_case_usd
        actual_usd := none
        status := ResStatus.reserved
        correlation_id := correlation_id
        ts_utc := now
        expires_at := now + DEFAULT_RESERVATION_EXPIRY_SEC }
    (Except.ok rid,
      { bm with
          reservations := bm.reservations ++ [r]
          in_flight_usd := bm.in_flight_usd + worst_case_usd
          correlation_ids_today :=
            if bm.correlation_ids_today.contains correlation_id
            then bm.correlation_ids_today
            else bm.correlation_ids_today ++ [correlation_id] })

def settle (bm : BudgetManager) (rid : String) (actual_usd : Option ℚ) :
    Bool × BudgetManager :=
  match findRes bm rid with
  | none => (false, bm)
  | some r =>
      if r.status ≠ ResStatus.reserved then (false, bm)
      else
        let cost := actual_usd.getD r.reserved_usd
        (true,
          { bm with
              reservations := updateRes bm.reservations rid
                (fun x => { x with status := ResStatus.settled, actual_usd := some cost })
              in_flight_usd := bm.in_flight_usd - r.reserved_usd
              spent_usd := bm.spent_usd + cost })

def release (bm : BudgetManager) (rid : String) : Bool × BudgetManager :=
  match findRes bm rid with
  | none => (false, bm)
  | some r =>
      if r.status ≠ ResStatus.reserved then (false, bm)
      else
        (true,
          { bm with
              reservations := updateRes bm.reservations rid
                (fun x => { x with status := ResStatus.released })
              in_flight_usd := bm.in_flight_usd - r.reserved_usd })

def is_reapable (now : ℚ) (r : Reservation) : Bool :=
  decide (r.status = ResStatus.reserved) && decide (r.expires_at < now - 5)

def reap_one (now : ℚ) (r : Reservation) : Reservation :=
  if is_reapable now r then
    { r with status := ResStatus.force_settled, actual_usd := some r.reserved_usd }
  else r

/-- Embeds reap_expired: every expired RESERVED reservation is force
settled, its reserved amount moving from in-flight to spent. -/
def reap_expired (bm : BudgetManager) (now : ℚ) : ℕ × BudgetManager :=
  let reaped := bm.reservations.filter (is_reapable now)
  let amount := (reaped.map (fun r => r.reserved_usd)).sum
  (reaped.length,
    { bm with
        reservations := bm.reservations.map (reap_one now)
        in_flight_usd := bm.in_flight_usd - amount
        spent_usd := bm.spent_usd + amount
        force_settle_count_today := bm.force_settle_count_today + reaped.length })

/-- Reachability under the amended operation contract: the manager starts
from a nonnegative wallet, reserve amounts are nonnegative, and a settle
never reports an actual cost above the reserved amount.  Times are arbitrary
within the day. -/
inductive BudgetReachable : ℚ → BudgetManager → Prop
  | init (wallet_usd : ℚ) (hw : 0 ≤ wallet_usd) :
      BudgetReachable wallet_usd (mkBudgetManager wallet_usd)
  | step_reserve {w : ℚ} {bm bm2 : BudgetManager}
      (model_key : String) (worst_case_usd : ℚ) (correlation_id rid rid2 : String) (now : ℚ)
      (h : BudgetReachable w bm) (hnn : 0 ≤ worst_case_usd)
      (hok : reserve bm model_key worst_case_usd correlation_id rid now =
              (Except.ok rid2, bm2)) :
      BudgetReachable w bm2
  | step_settle {w : ℚ} {bm : BudgetManager} (rid : String) (actual_usd : Option ℚ)
      (h : BudgetReachable w bm)
      (hle : ∀ r, findRes bm rid = some r → actual_usd.getD r.reserved_usd ≤ r.reserved_usd) :
      BudgetReachable w (settle bm rid actual_usd).2
  | step_release {w : ℚ} {bm : BudgetManager} (rid : String)
      (h : BudgetReachable w bm) :
      BudgetReachable w (release bm rid).2
  | step_reap {w : ℚ} {bm : BudgetManager} (now : ℚ)
      (h : BudgetReachable w bm) :
      BudgetReachable w (reap_expired bm now).2

/-! ## Trigger persistence (polyedge/candidates.py, TriggerState)

The per-key dict entry holds first_seen, count and last_snapshot_id exactly
as in the source; time.time() becomes the explicit now argument of
record_trigger.  The state maps (market_id, trigger_type) keys to entries
through an association list. -/

structure TrigEntry where
  first_seen : ℚ
  count : ℕ
  last_snapshot_id : String
deriving DecidableEq

abbrev TrigState : Type := List ((String × String) × TrigEntry)

def lookupTrig (st : TrigState) (key : String × String) : Option TrigEntry :=
  (st.find? (fun kv => kv.1 == key)).map (fun kv => kv.2)

def updateTrig (st : TrigState) (key : String × String) (e : TrigEntry) : TrigState :=
  match st with
  | [] => []
  | kv :: rest =>
      if kv.1 == key then (key, e) :: rest else kv :: updateTrig rest key e

def emptyTrigState : TrigState := []

/-- Embeds TriggerState.record_trigger.  Returns True when the persistence
thresholds are met after recording this occurrence. -/
def record_trigger (st : TrigState) (market_id trigger_type snapshot_id : String)
    (now : ℚ) : Bool × TrigState :=
  let key := (market_id, trigger_type)
  match lookupTrig st key with
  | none =>
      (false, st ++ [(key, { first_seen := now, count := 1, last_snapshot_id := snapshot_id })])
  | some entry =>
      if entry.last_snapshot_id == snapshot_id then (false, st)
      else
        let entry2 : TrigEntry :=
          { entry with count := entry.count + 1, last_snapshot_id := snapshot_id }
        let st2 := updateTrig st key entry2
        if TRIGGER_PERSIST_UPDATES ≤ entry2.count ∧
           TRIGGER_PERSIST_MIN_SEC ≤ now - entry.first_seen
        then (true, st2)
        else (false, st2)

/-- Runs a sequence of record_trigger calls for one (market, trigger) pair;
the Bool is the value returned by the last call (false for the empty
sequence). -/
def run_trigger_seq (market_id trigger_type : String) (st : TrigState) :
    List (String × ℚ) → Bool × TrigState
  | [] => (false, st)
  | [(sid, t)] => record_trigger st market_id trigger_type sid t
  | (sid, t) :: ev :: rest =>
      run_trigger_seq market_id trigger_type
        (record_trigger st market_id trigger_type sid t).2 (ev :: rest)

/-- Collapses runs of equal consecutive snapshot ids; the surviving length is
the number of calls the tracker actually counts. -/
def collapse_consecutive : List String → List String
  | [] => []
  | [a] => [a]
  | a :: b :: rest =>
      if a == b then collapse_consecutive (b :: rest)
      else a :: collapse_consecutive (b :: rest)

/-! ## Paper execution (polyedge/execution.py)

The fill tracker keys pending through-records by order id in an association
list; time.time() becomes the explicit now argument, with the several reads
inside one call identified (they are microseconds apart in the source).
check_fill attaches fee_usd := 0; process_book_update overwrites it with the
pessimistic paper fee exactly as the source mutates the fill dict. -/

structure PendingThrough where
  first_through_at : ℚ
  through_price : ℚ
deriving DecidableEq

structure Fill where
  order_id : String
  fill_price : ℚ
  fill_time : ℚ
  through_price : ℚ
  fee_usd : ℚ
deriving DecidableEq

def TICK_SIZE : ℚ := 0.01
def SUSTAIN_SEC : ℚ := 3

abbrev PendMap : Type := List (String × PendingThrough)

def lookupPend (p : PendMap) (order_id : String) : Option PendingThrough :=
  (p.find? (fun kv => kv.1 == order_id)).map (fun kv => kv.2)

def removePend (p : PendMap) (order_id : String) : PendMap :=
  p.filter (fun kv => !(kv.1 == order_id))

def insertPend (p : PendMap) (order_id : String) (e : PendingThrough) : PendMap :=
  p ++ [(order_id, e)]

/-- Embeds PaperFillTracker.check_fill.  Both sides compare the current ask
against limit minus one tick, as in the source. -/
def check_fill (pending : PendMap) (order_id side : String)
    (limit_price current_price now : ℚ) : Option Fill × PendMap :=
  let through := decide (current_price ≤ limit_price - TICK_SIZE)
  if through then
    let pending2 :=
      match lookupPend pending order_id with
      | none => insertPend pending order_id
          { first_through_at := now, through_price := current_price }
      | some _ => pending
    match lookupPend pending2 order_id with
    | none => (none, pending2)
    | some entry =>
        if SUSTAIN_SEC ≤ now - entry.first_through_at then
          (some { order_id := order_id, fill_price := limit_price, fill_time := now,
                  through_price := entry.through_price, fee_usd := 0 },
           removePend pending2 order_id)
        else (none, pending2)
  else (none, removePend pending order_id)

inductive OrdStatus
  | OPEN
  | FILLED
  | CANCELLED
deriving DecidableEq

structure Order where
  client_order_id : String
  market_id : String
  side : String
  size_usd : ℚ
  limit_price : ℚ
  decision_id_hex : String
  status : OrdStatus
  submitted_at : ℚ
  fills : List Fill
deriving DecidableEq

structure Engine where
  pending : PendMap
  orders : List Order
  fills : List Fill
  total_fees_usd : ℚ
deriving DecidableEq

def submit_order (e : Engine) (client_order_id market_id side : String)
    (size_usd limit_price : ℚ) (decision_id_hex : String) (now : ℚ) : Order × Engine :=
  let o : Order :=
    { client_order_id := client_order_id, market_id := market_id, side := side,
      size_usd := size_usd, limit_price := limit_price,
      decision_id_hex := decision_id_hex, status := OrdStatus.OPEN,
      submitted_at := now, fills := [] }
  (o, { e with orders := e.orders ++ [o] })

def paper_fee_usd (size_usd : ℚ) : ℚ :=
  let fee_bps := max PAPER_MIN_FEE_BPS 0 * PAPER_FEE_MULTIPLIER
  size_usd * (fee_bps / 10000)

/-- Iterates the order loop of process_book_update over the order list,
threading the tracker state and collecting filled orders and new fills in
iteration order. -/
def process_orders (market_id : String) (best_ask now : ℚ) :
    List Order → PendMap → List Order × PendMap × List Fill
  | [], p => ([], p, [])
  | o :: rest, p =>
      if o.market_id == market_id && decide (o.status = OrdStatus.OPEN) then
        match check_fill p o.client_order_id o.side o.limit_price best_ask now with
        | (some f0, p2) =>
            let f := { f0 with fee_usd := paper_fee_usd o.size_usd }
            let o2 := { o with fills := o.fills ++ [f], status := OrdStatus.FILLED }
            let rec2 := process_orders market_id best_ask now rest p2
            (o2 :: rec2.1, rec2.2.1, f :: rec2.2.2)
        | (none, p2) =>
            let rec2 := process_orders market_id best_ask now rest p2
            (o :: rec2.1, rec2.2.1, rec2.2.2)
      else
        let rec2 := process_orders market_id best_ask now rest p
        (o :: rec2.1, rec2.2.1, rec2.2.2)

/-- Embeds PaperExecutionEngine.process_book_update.  The ask side is the
current price for buys, as in the source. -/
def process_book_update (e : Engine) (market_id : String) (best_ask best_bid now : ℚ) :
    List Fill × Engine :=
  let stepped := process_orders market_id best_ask now e.orders e.pending
  let new_fills := stepped.2.2
  (new_fills,
    { e with
        orders := stepped.1
        pending := stepped.2.1
        fills := e.fills ++ new_fills
        total_fees_usd := e.total_fees_usd + (new_fills.map (fun f => f.fee_usd)).sum })

structure BookUpdate where
  market_id : String
  best_ask : ℚ
  best_bid : ℚ
  now : ℚ
deriving DecidableEq

def run_book_updates (e : Engine) : List BookUpdate → Engine
  | [] => e
  | u :: rest =>
      run_book_updates (process_book_update e u.market_id u.best_ask u.best_bid u.now).2 rest

def findOrder (e : Engine) (client_order_id : String) : Option Order :=
  e.orders.find? (fun o => o.client_order_id == client_order_id)

/-- Property of one book update: it belongs to market m and trades through
the limit price L by at least one tick. -/
def ThroughU (m : String) (L : ℚ) (u : BookUpdate) : Prop :=
  u.market_id = m ∧ u.best_ask ≤ L - TICK_SIZE

/-- Property of a trace: some update traded through the limit by at least a
tick, and the through condition held at every observation of the market for
at least SUSTAIN_SEC seconds afterwards, up to a second through update. -/
def SustainedThrough (m : String) (L : ℚ) (trace : List BookUpdate) : Prop :=
  ∃ a u1 b u2 c, trace = a ++ u1 :: (b ++ u2 :: c) ∧
    ThroughU m L u1 ∧ ThroughU m L u2 ∧
    (∀ u ∈ b, u.market_id = m → ThroughU m L u) ∧
    u1.now + SUSTAIN_SEC ≤ u2.now

/-- Invariant piece: the pending entry was created at a through update at
time t0 and every market observation since then was through. -/
def PendWitness (m : String) (L : ℚ) (trace : List BookUpdate) (t0 : ℚ) : Prop :=
  ∃ a u0 b, trace = a ++ u0 :: b ∧ ThroughU m L u0 ∧ u0.now = t0 ∧
    (∀ u ∈ b, u.market_id = m → ThroughU m L u)

/-- Invariant of the execution engine relative to one tracked order: the
order ids are distinct (the source keys orders by a dict), the tracked order
is present with fixed market and limit, and it is either OPEN with its
pending through-entry backed by a through run in the processed trace, or
FILLED with a sustained through window in the trace. -/
def EngineTrack (cid m : String) (L : ℚ) (trace : List BookUpdate) (e : Engine) : Prop :=
  (e.orders.map (fun o => o.client_order_id)).Nodup ∧
  ∃ o, findOrder e cid = some o ∧
    o.client_order_id = cid ∧ o.market_id = m ∧ o.limit_price = L ∧
    ((o.status = OrdStatus.OPEN ∧
        (lookupPend e.pending cid = none ∨
         ∃ t0 tp, lookupPend e.pending cid = some ⟨t0, tp⟩ ∧ PendWitness m L trace t0)) ∨
     (o.status = OrdStatus.FILLED ∧ SustainedThrough m L trace))

/-! ## Decision engine (polyedge/decision.py)

Python round(x, n) rounds half to even; on the exact rationals used here
that is roundHalfEven below.  The canonical JSON that feeds the decision
hash serialises the eight sorted fields with those rounded values, so it is
modelled as the DecisionCanonical record of the rounded field values (JSON
serialisation is injective on distinct records).  SHA-256 itself is the
uninterpreted sha parameter. -/

def roundHalfEven (q : ℚ) : ℤ :=
  if q - ⌊q⌋ < 1/2 then ⌊q⌋
  else if 1/2 < q - ⌊q⌋ then ⌊q⌋ + 1
  else if Even ⌊q⌋ then ⌊q⌋ else ⌊q⌋ + 1

def pyRound (ndigits : ℕ) (q : ℚ) : ℚ :=
  (roundHalfEven (q * 10 ^ ndigits) : ℚ) / 10 ^ ndigits

def REASON_EV_TOO_LOW : String := "EV_TOO_LOW"

def compute_spread_cost (bid ask : ℚ) : ℚ := 0.5 * max 0 (ask - bid)

def compute_fee_cost (fee_rate_bps : ℚ) (is_paper : Bool) : ℚ :=
  if is_paper then (max fee_rate_bps PAPER_MIN_FEE_BPS) / 10000 * PAPER_FEE_MULTIPLIER
  else fee_rate_bps / 10000

def compute_slippage_buffer (order_size_usd depth_usd_top_levels : ℚ) : ℚ :=
  max 0.005 (order_size_usd / max depth_usd_top_levels 1 * 0.02)

def compute_dispute_buffer (dispute_risk : ℚ) (evidence_conflict_tier1 : Bool) : ℚ :=
  let buf := 0.01 + 0.02 * dispute_risk
  if evidence_conflict_tier1 then buf * 1.5 else buf

def compute_latency_penalty (decision_to_exec_sec : ℚ) : ℚ :=
  max 0 (decision_to_exec_sec - 2) * 0.001

def compute_time_value_penalty (time_to_resolution_days : ℚ) : ℚ :=
  min 0.02 (time_to_resolution_days * 0.0002)

def compute_required_edge (spread_cost fee_cost slippage_buffer dispute_buffer
    latency_penalty time_value_penalty : ℚ) : ℚ :=
  spread_cost + fee_cost + slippage_buffer + dispute_buffer +
    latency_penalty + time_value_penalty

def compute_ev (p_eff entry_price required_edge : ℚ) (side : String) : ℚ :=
  if side == "YES" then p_eff * 1 - entry_price - required_edge
  else (1 - p_eff) * 1 - entry_price - required_edge

/-- Record of the canonical JSON fields hashed into the decision id, holding
the already rounded values in the sorted key order of the source. -/
structure DecisionCanonical where
  candidate_id : String
  entry_price : ℚ
  ev : ℚ
  market_id : String
  order_size_usd : ℚ
  p_eff : ℚ
  required_edge : ℚ
  side : String
deriving DecidableEq

structure DecisionGates where
  spread_cost_yes : ℚ
  spread_cost_no : ℚ
  fee_cost : ℚ
  slippage_yes : ℚ
  slippage_no : ℚ
  dispute_buffer : ℚ
  latency_penalty : ℚ
  time_value_penalty : ℚ
deriving DecidableEq

structure Decision where
  decision_id_hex : String
  market_id : String
  candidate_id : String
  side : String
  size_usd : ℚ
  entry_price : ℚ
  p_market : ℚ
  p_eff : ℚ
  required_edge : ℚ
  ev : ℚ
  ev_yes : ℚ
  ev_no : ℚ
  reason_code : String
  gates : DecisionGates
  client_order_id : String
  is_paper : Bool
deriving DecidableEq

structure DecisionInputs where
  market_id : String
  candidate_id : String
  p_eff : ℚ
  snapshot : Snapshot
  order_size_usd : ℚ
  dispute_risk : ℚ
  evidence_conflict_tier1 : Bool
  decision_to_exec_sec : ℚ
  time_to_resolution_days : ℚ
  fee_rate_bps : ℚ
  is_paper : Bool

/-- The (side, ev, entry_price, required_edge) chosen by the trade rule of
make_decision, together with both expected values and edges. -/
def decision_trade_rule (inp : DecisionInputs) :
    String × ℚ × ℚ × ℚ × ℚ × ℚ × ℚ × ℚ :=
  let bid_yes := inp.snapshot.best_bid_yes.getD 0
  let ask_yes := inp.snapshot.best_ask_yes.getD 0
  let bid_no := inp.snapshot.best_bid_no.getD 0
  let ask_no := inp.snapshot.best_ask_no.getD 0
  let depth_yes := ((inp.snapshot.depth_yes.take 3).map Prod.snd).sum
  let depth_no := ((inp.snapshot.depth_no.take 3).map Prod.snd).sum
  let spread_yes := compute_spread_cost bid_yes ask_yes
  let spread_no := compute_spread_cost bid_no ask_no
  let fee := compute_fee_cost inp.fee_rate_bps inp.is_paper
  let slippage_yes := compute_slippage_buffer inp.order_size_usd depth_yes
  let slippage_no := compute_slippage_buffer inp.order_size_usd depth_no
  let dispute := compute_dispute_buffer inp.dispute_risk inp.evidence_conflict_tier1
  let latency := compute_latency_penalty inp.decision_to_exec_sec
  let time_val := compute_time_value_penalty inp.time_to_resolution_days
  let edge_yes := compute_required_edge spread_yes fee slippage_yes dispute latency time_val
  let edge_no := compute_required_edge spread_no fee slippage_no dispute latency time_val
  let ev_yes := compute_ev inp.p_eff ask_yes edge_yes "YES"
  let ev_no := compute_ev inp.p_eff ask_no edge_no "NO"
  if EV_MIN ≤ ev_yes ∧ ev_no ≤ ev_yes then
    ("YES", ev_yes, ask_yes, edge_yes, ev_yes, ev_no, edge_yes, edge_no)
  else if EV_MIN ≤ ev_no then
    ("NO", ev_no, ask_no, edge_no, ev_yes, ev_no, edge_yes, edge_no)
  else
    ("NO_TRADE", max ev_yes ev_no, 0, max edge_yes edge_no, ev_yes, ev_no, edge_yes, edge_no)

/-- Canonical record actually hashed by make_decision: p_eff, entry_price,
ev and required_edge rounded to 6 decimals, order_size_usd rounded to 2
decimals, as in the source. -/
def make_decision_canonical (inp : DecisionInputs) : DecisionCanonical :=
  let tr := decision_trade_rule inp
  { candidate_id := inp.candidate_id
    entry_price := pyRound 6 tr.2.2.1
    ev := pyRound 6 tr.2.1
    market_id := inp.market_id
    order_size_usd := pyRound 2 inp.order_size_usd
    p_eff := pyRound 6 inp.p_eff
    required_edge := pyRound 6 tr.2.2.2.1
    side := tr.1 }

/-- Stated from the claim: the canonical record with every numeric field,
including the size, rounded to 6 decimals. -/
def spec_decision_canonical (inp : DecisionInputs) : DecisionCanonical :=
  let tr := decision_trade_rule inp
  { candidate_id := inp.candidate_id
    entry_price := pyRound 6 tr.2.2.1
    ev := pyRound 6 tr.2.1
    market_id := inp.market_id
    order_size_usd := pyRound 6 inp.order_size_usd
    p_eff := pyRound 6 inp.p_eff
    required_edge := pyRound 6 tr.2.2.2.1
    side := tr.1 }

/-- Embeds make_decision, with the SHA-256 of the canonical JSON abstracted
into the sha parameter applied to the canonical field record. -/
def make_decision (sha : DecisionCanonical → String) (inp : DecisionInputs) : Decision :=
  let bid_yes := inp.snapshot.best_bid_yes.getD 0
  let ask_yes := inp.snapshot.best_ask_yes.getD 0
  let bid_no := inp.snapshot.best_bid_no.getD 0
  let ask_no := inp.snapshot.best_ask_no.getD 0
  let depth_yes := ((inp.snapshot.depth_yes.take 3).map Prod.snd).sum
  let depth_no := ((inp.snapshot.depth_no.take 3).map Prod.snd).sum
  let spread_yes := compute_spread_cost bid_yes ask_yes
  let spread_no := compute_spread_cost bid_no ask_no
  let fee := compute_fee_cost inp.fee_rate_bps inp.is_paper
  let slippage_yes := compute_slippage_buffer inp.order_size_usd depth_yes
  let slippage_no := compute_slippage_buffer inp.order_size_usd depth_no
  let dispute := compute_dispute_buffer inp.dispute_risk inp.evidence_conflict_tier1
  let latency := compute_latency_penalty inp.decision_to_exec_sec
  let time_val := compute_time_value_penalty inp.time_to_resolution_days
  let tr := decision_trade_rule inp
  let decision_id_hex := sha (make_decision_canonical inp)
  { decision_id_hex := decision_id_hex
    market_id := inp.market_id
    candidate_id := inp.candidate_id
    side := tr.1
    size_usd := inp.order_size_usd
    entry_price := pyRound 6 tr.2.2.1
    p_market := pyRound 6 ask_yes
    p_eff := pyRound 6 inp.p_eff
    required_edge := pyRound 6 tr.2.2.2.1
    ev := pyRound 6 tr.2.1
    ev_yes := pyRound 6 tr.2.2.2.2.1
    ev_no := pyRound 6 tr.2.2.2.2.2.1
    reason_code := if tr.1 ≠ "NO_TRADE" then "TRADE" else REASON_EV_TOO_LOW
    gates :=
      { spread_cost_yes := pyRound 6 spread_yes
        spread_cost_no := pyRound 6 spread_no
        fee_cost := pyRound 6 fee
        slippage_yes := pyRound 6 slippage_yes
        slippage_no := pyRound 6 slippage_no
        dispute_buffer := pyRound 6 dispute
        latency_penalty := pyRound 6 latency
        time_value_penalty := pyRound 6 time_val }
    client_order_id := decision_id_hex
    is_paper := inp.is_paper }

/-! ## Bot durable state (polyedge/bot_state.py)

HMAC-SHA-256 is the uninterpreted mac parameter from (secret, canonical
string) to digest bytes; sign and verify_signature both call it on the same
canonical string, as in the source.  Timestamps appear only through
isoformat, so ts_utc is carried as that string.  The database pool reduces
to the stored singleton row (None before first boot) and the row written
back, returned in InitOutcome.saved. -/

inductive BSName
  | OBSERVE_ONLY
  | PAPER_TRADING
  | LIVE_ARMED
  | LIVE_TRADING
  | HALTED
  | HALTED_DAILY
deriving DecidableEq

def bsNameStr : BSName → String
  | BSName.OBSERVE_ONLY => "OBSERVE_ONLY"
  | BSName.PAPER_TRADING => "PAPER_TRADING"
  | BSName.LIVE_ARMED => "LIVE_ARMED"
  | BSName.LIVE_TRADING => "LIVE_TRADING"
  | BSName.HALTED => "HALTED"
  | BSName.HALTED_DAILY => "HALTED_DAILY"

structure BotState where
  state : BSName
  counter : ℤ
  ts_utc : String
  armed_until_utc : Option String
  halt_until_utc : Option String
  halt_resume_state : Option String
  state_signature : List ℕ
deriving DecidableEq

def state_canonical (state : BSName) (counter : ℤ) (ts_utc : String) : String :=
  "state=" ++ bsNameStr state ++ "|counter=" ++ toString counter ++ "|ts_utc=" ++ ts_utc

def compute_state_signature (mac : String → String → List ℕ)
    (state : BSName) (counter : ℤ) (ts_utc secret : String) : List ℕ :=
  mac secret (state_canonical state counter ts_utc)

def verify_signature (mac : String → String → List ℕ) (bs : BotState)
    (secret : String) : Bool :=
  bs.state_signature == compute_state_signature mac bs.state bs.counter bs.ts_utc secret

def sign_state (mac : String → String → List ℕ) (bs : BotState) (secret : String) :
    BotState :=
  { bs with state_signature :=
      compute_state_signature mac bs.state bs.counter bs.ts_utc secret }

structure InitOutcome where
  result : BotState
  saved : Option BotState
deriving DecidableEq

/-- Embeds initialise_bot_state: create-and-sign on first boot, fatal
StateSignatureError (the Except.error case) on a signature mismatch, and a
signed persisted force-downgrade of the LIVE states. -/
def initialise_bot_state (mac : String → String → List ℕ)
    (stored : Option BotState) (secret : String) (now : String) :
    Except Unit InitOutcome :=
  match stored with
  | none =>
      let bs := sign_state mac
        { state := BSName.OBSERVE_ONLY, counter := 1, ts_utc := now,
          armed_until_utc := none, halt_until_utc := none,
          halt_resume_state := none, state_signature := [] } secret
      Except.ok { result := bs, saved := some bs }
  | some bs =>
      if verify_signature mac bs secret = false then Except.error ()
      else if bs.state = BSName.LIVE_ARMED ∨ bs.state = BSName.LIVE_TRADING then
        let bs2 := sign_state mac
          { bs with state := BSName.OBSERVE_ONLY, counter := bs.counter + 1,
                    ts_utc := now, armed_until_utc := none } secret
        Except.ok { result := bs2, saved := some bs2 }
      else
        Except.ok { result := bs, saved := none }

/-! ## Arming ceremony (polyedge/arming.py)

The arming file on disk is one of missing, unreadable (present but failing
json.load), or a parsed record whose fields are each optional because the
source reads them with dict.get.  The source formats details into the
unreadable and expired messages; the embedding keeps the fixed prefix of
each message, which stay pairwise distinct.  verify_arming_file returns the
file as it leaves it, making any consumption observable. -/

structure ArmingRecord where
  armed_at_utc : Option ℚ
  process_start_unix_ms : Option ℤ
  nonce1 : Option String
  arming_signature : Option String
deriving DecidableEq

inductive ArmingFile
  | missing
  | unreadable
  | content (r : ArmingRecord)
deriving DecidableEq

def arming_sig_payload (process_start : ℤ) (nonce1 : Option String) : String :=
  toString process_start ++ ":" ++ (match nonce1 with | some n => n | none => "None")

structure VerifyOut where
  ok : Bool
  msg : String
  armed : Bool
  file_after : ArmingFile
deriving DecidableEq

def MSG_FILE_NOT_FOUND : String := "Arming file not found"
def MSG_FILE_UNREADABLE : String := "Arming file unreadable"
def MSG_WRONG_PROCESS : String := "Arming file bound to different process"
def MSG_FILE_EXPIRED : String := "Arming file expired"
def MSG_SIGNATURE_MISMATCH : String := "Arming signature mismatch"
def MSG_ARMED : String := "Armed"

/-- Embeds ArmingCeremony.verify_arming_file.  The signature payload formats
the record values, which at that point equal the process start of the
ceremony; armed0 is the _armed flag before the call. -/
def verify_arming_file (mac : String → String → String) (process_start : ℤ)
    (secret : String) (armed0 : Bool) (file : ArmingFile) (now : ℚ) : VerifyOut :=
  match file with
  | ArmingFile.missing =>
      { ok := false, msg := MSG_FILE_NOT_FOUND, armed := armed0, file_after := file }
  | ArmingFile.unreadable =>
      { ok := false, msg := MSG_FILE_UNREADABLE, armed := armed0, file_after := file }
  | ArmingFile.content r =>
      if r.process_start_unix_ms ≠ some process_start then
        { ok := false, msg := MSG_WRONG_PROCESS, armed := armed0, file_after := file }
      else if ARMING_FILE_MAX_AGE_SEC < now - r.armed_at_utc.getD 0 then
        { ok := false, msg := MSG_FILE_EXPIRED, armed := armed0, file_after := file }
      else if r.arming_signature ≠
          some (mac secret (arming_sig_payload process_start r.nonce1)) then
        { ok := false, msg := MSG_SIGNATURE_MISMATCH, armed := armed0, file_after := file }
      else
        { ok := true, msg := MSG_ARMED, armed := true, file_after := file }

structure CeremonyState where
  nonce1 : Option String
  nonce1_created_at : ℚ
  armed : Bool
deriving DecidableEq

/-- Embeds ArmingCeremony.step2_confirm: consumes the nonce and writes the
arming file; the written file (if any) is the last component. -/
def step2_confirm (mac : String → String → String) (process_start : ℤ)
    (secret : String) (st : CeremonyState) (nonce1 : String) (now : ℚ) :
    Except String (ArmingRecord × CeremonyState × ArmingFile) :=
  match st.nonce1 with
  | none => Except.error "Step 1 not completed"
  | some n =>
      if ARMING_NONCE1_TTL_SEC < now - st.nonce1_created_at then
        Except.error "Nonce1 expired"
      else if nonce1 ≠ n then Except.error "Nonce1 mismatch"
      else
        let record : ArmingRecord :=
          { armed_at_utc := some now
            process_start_unix_ms := some process_start
            nonce1 := some n
            arming_signature := some (mac secret (arming_sig_payload process_start (some n))) }
        Except.ok (record, { st with armed := true, nonce1 := none },
          ArmingFile.content record)

/-! ## Theorems -/

theorem clamp01_abs_le {x pm dm : ℚ} (h : |x - pm| ≤ dm) (h0 : 0 ≤ pm) (h1 : pm ≤ 1) :
    |max 0 (min 1 x) - pm| ≤ dm := by
  rcases abs_le.mp h with ⟨hlo, hhi⟩
  rw [abs_le]
  rcases le_total x 0 with hx0 | hx0
  · rw [min_eq_right (le_trans hx0 zero_le_one), max_eq_left hx0]
    constructor <;> linarith
  · rcases le_total 1 x with hx1 | hx1
    · rw [min_eq_left hx1, max_eq_right zero_le_one]
      constructor <;> linarith
    · rw [min_eq_right hx1, max_eq_right hx0]
      constructor <;> linarith

/-- C10: both anomaly detectors are total on missing data and fail closed:
a missing ask makes detect_ask_sum_anomaly true, and any missing best price
makes detect_invalid_book_anomaly true. -/
theorem c10_detectors_fail_closed_on_missing
    (ay an bby bay bbn ban : Option ℚ) :
    ((ay = none ∨ an = none) → detect_ask_sum_anomaly ay an = true) ∧
    ((bby = none ∨ bay = none ∨ bbn = none ∨ ban = none) →
      detect_invalid_book_anomaly bby bay bbn ban = true) := by
  constructor
  · rintro (rfl | rfl)
    · cases an <;> rfl
    · cases ay <;> rfl
  · rintro (rfl | rfl | rfl | rfl)
    · cases bay <;> cases bbn <;> cases ban <;> rfl
    · cases bby <;> cases bbn <;> cases ban <;> rfl
    · cases bby <;> cases bay <;> cases ban <;> rfl
    · cases bby <;> cases bay <;> cases bbn <;> rfl

theorem c10_witness :
    detect_ask_sum_anomaly none (some 0.5) = true ∧
    detect_invalid_book_anomaly (some 0.4) none (some 0.5) (some 0.6) = true :=
  ⟨(c10_detectors_fail_closed_on_missing none (some 0.5) (some 0.4) none
      (some 0.5) (some 0.6)).1 (Or.inl rfl),
   (c10_detectors_fail_closed_on_missing none (some 0.5) (some 0.4) none
      (some 0.5) (some 0.6)).2 (Or.inr (Or.inl rfl))⟩

/-- C5 counterexample: at p_market = 0, p_ai_cal = 1, w_ai = 1, dispute = 0
the pre-clamp deviation is 1 > 0.20, yet compute_p_eff returns no reason at
all (the source tests the deviation only after the delta_max clamp), instead
of surfacing P_EFF_OUTLIER as the claim states. -/
theorem c5_counterexample :
    P_EFF_OUTLIER_THRESHOLD < |(0 : ℚ) + 1 * (1 - 0) - 0| ∧
    compute_p_eff 0 1 1 0 = (0.10, none) := by
  constructor
  · rw [show ((0 : ℚ) + 1 * (1 - 0) - 0) = 1 by norm_num, abs_one]
    norm_num [P_EFF_OUTLIER_THRESHOLD]
  · norm_num [compute_p_eff, delta_max_for, DELTA_MAX_DEFAULT, DELTA_MAX_HIGH_DISPUTE,
      P_EFF_OUTLIER_THRESHOLD]
    intro h
    rw [show |(1 : ℚ)/10| = 1/10 from abs_of_pos (by norm_num)] at h
    norm_num at h

/-- C5 amended: the outlier test inspects the post-clamp deviation, which
never exceeds delta_max ≤ 0.10 < 0.20, so compute_p_eff never surfaces
P_EFF_OUTLIER; on every input the returned value is clamped into [0, 1], and
whenever p_market itself lies in [0, 1] the value is within delta_max of
p_market. -/
theorem c5_p_eff_never_outlier_and_clamped
    (p_market p_ai_cal w_ai dispute_risk : ℚ) :
    (compute_p_eff p_market p_ai_cal w_ai dispute_risk).2 = none ∧
    0 ≤ (compute_p_eff p_market p_ai_cal w_ai dispute_risk).1 ∧
    (compute_p_eff p_market p_ai_cal w_ai dispute_risk).1 ≤ 1 ∧
    (0 ≤ p_market → p_market ≤ 1 →
      |(compute_p_eff p_market p_ai_cal w_ai dispute_risk).1 - p_market| ≤
        delta_max_for dispute_risk) := by
  have hdm0 : 0 < delta_max_for dispute_risk := by
    unfold delta_max_for DELTA_MAX_HIGH_DISPUTE DELTA_MAX_DEFAULT
    split <;> norm_num
  have hdm1 : delta_max_for dispute_risk ≤ 0.10 := by
    unfold delta_max_for DELTA_MAX_HIGH_DISPUTE DELTA_MAX_DEFAULT
    split <;> norm_num
  unfold compute_p_eff
  set dm := delta_max_for dispute_risk with hdm
  set d := p_market + w_ai * (p_ai_cal - p_market) - p_market with hd
  have key : |(if dm < |d| then (if 0 < d then p_market + dm else p_market - dm)
      else p_market + w_ai * (p_ai_cal - p_market)) - p_market| ≤ dm := by
    split
    · split
      · simpa using le_of_eq (abs_of_pos hdm0)
      · rw [show p_market - dm - p_market = -dm by ring, abs_neg]
        simpa using le_of_eq (abs_of_pos hdm0)
    · rename_i hnot
      push_neg at hnot
      simpa [hd] using hnot
  set v := (if dm < |d| then (if 0 < d then p_market + dm else p_market - dm)
      else p_market + w_ai * (p_ai_cal - p_market)) with hv
  have houtlier : ¬ (P_EFF_OUTLIER_THRESHOLD < |v - p_market|) := by
    have : |v - p_market| ≤ 0.10 := le_trans key hdm1
    unfold P_EFF_OUTLIER_THRESHOLD
    push_neg
    linarith
  rw [if_neg houtlier]
  refine ⟨rfl, le_max_left _ _, ?_, ?_⟩
  · exact max_le (by norm_num) (min_le_left _ _)
  · intro h0 h1
    exact clamp01_abs_le key h0 h1

theorem c5_witness :
    (compute_p_eff 0.55 0.70 0.30 0.1).2 = none ∧
    (0 ≤ (0.55 : ℚ) ∧ (0.55 : ℚ) ≤ 1) ∧
    |(compute_p_eff 0.55 0.70 0.30 0.1).1 - 0.55| ≤ delta_max_for 0.1 :=
  ⟨(c5_p_eff_never_outlier_and_clamped 0.55 0.70 0.30 0.1).1,
   ⟨by norm_num, by norm_num⟩,
   (c5_p_eff_never_outlier_and_clamped 0.55 0.70 0.30 0.1).2.2.2
     (by norm_num) (by norm_num)⟩

/-- C9: with ws_state = None the WS-health stage of run_all_filters is
skipped entirely, so the outcome coincides with the first nine filters; in
particular a candidate whose snapshot fails ws_healthy_decision (here a
REST-sourced snapshot) still passes with (true, none). -/
theorem c9_ws_filter_skipped_when_state_none :
    (∀ (c : CandidateView) (m : MarketView) (s : Snapshot) (now_utc : ℚ) (now_ms : ℤ),
        run_all_filters c m s none now_utc now_ms = run_first_nine_filters c m s now_utc) ∧
    run_all_filters ⟨"mkt", some 1000⟩ ⟨true, some 8200, some 1000, some 2000⟩
      ⟨"snap1", "mkt", 0, "REST", 0, 0, some 1, some 1,
        some 0.48, some 0.50, some 0.49, some 0.50,
        [(0.5, 60)], [(0.5, 60)], [], false, false⟩ none 1000 0 = (true, none) ∧
    (ws_healthy_decision "mkt"
      ⟨"snap1", "mkt", 0, "REST", 0, 0, some 1, some 1,
        some 0.48, some 0.50, some 0.49, some 0.50,
        [(0.5, 60)], [(0.5, 60)], [], false, false⟩
      ⟨true, 0, 0⟩ 0).1 = false := by
  refine ⟨fun c m s now_utc now_ms => rfl, ?_, ?_⟩
  · norm_num [run_all_filters, filter_candidate_age, filter_market_eligible,
      filter_time_to_resolution, filter_volume, filter_liquidity, filter_invalid_book,
      filter_ask_sum_anomaly, filter_spread, filter_depth, top_depth_usd,
      CANDIDATE_MAX_AGE_SEC, TIME_TO_RESOLUTION_MIN_SEC, TIME_TO_RESOLUTION_MAX_SEC,
      MIN_VOLUME_24H_USD, MIN_LIQUIDITY_USD, MAX_SPREAD_ABS, MIN_DEPTH_USD_NEAR_TOP,
      BOOK_LEVELS_REQUIRED]
  · norm_num [ws_healthy_decision, ws_healthy_core, WS_HEARTBEAT_SEC,
      MAX_MARKET_SNAPSHOT_AGE_DECISION_SEC]
    decide

theorem updateRes_preserves_nonneg {rs : List Reservation} {rid : String}
    {f : Reservation → Reservation}
    (hf : ∀ y, (f y).reserved_usd = y.reserved_usd)
    (h : ∀ r ∈ rs, 0 ≤ r.reserved_usd) :
    ∀ r ∈ updateRes rs rid f, 0 ≤ r.reserved_usd := by
  induction rs with
  | nil => simp [updateRes]
  | cons x rest ih =>
      intro r hr
      unfold updateRes at hr
      split at hr
      · rcases List.mem_cons.mp hr with rfl | hmem
        · rw [hf]
          exact h x (List.mem_cons_self x rest)
        · exact h r (List.mem_cons_of_mem x hmem)
      · rcases List.mem_cons.mp hr with rfl | hmem
        · exact h r (List.mem_cons_self r rest)
        · exact ih (fun y hy => h y (List.mem_cons_of_mem x hy)) r hmem

theorem reap_one_reserved_usd (now : ℚ) (y : Reservation) :
    (reap_one now y).reserved_usd = y.reserved_usd := by
  unfold reap_one
  split <;> rfl

theorem budget_inv_aux {w : ℚ} {bm : BudgetManager} (h : BudgetReachable w bm) :
    bm.spent_usd + bm.in_flight_usd ≤ bm.daily_cap ∧
    ∀ r ∈ bm.reservations, 0 ≤ r.reserved_usd := by
  induction h with
  | init hw =>
      refine ⟨?_, by simp [mkBudgetManager]⟩
      simp only [mkBudgetManager, compute_daily_cap]
      have h2 : (0 : ℚ) ≤ AI_CAP_USD_USER := by norm_num [AI_CAP_USD_USER]
      have h3 := mul_nonneg hw
        (show (0 : ℚ) ≤ AI_CAP_PCT_PER_DAY_DEFAULT by
          norm_num [AI_CAP_PCT_PER_DAY_DEFAULT])
      simpa using le_min h2 h3
  | step_reserve model_key amt corr rid rid2 now h hnn hok ih =>
      unfold reserve at hok
      split_ifs at hok with h1 h2 h3 h4
      · simp at hok
      · simp at hok
      · simp at hok
      all_goals
        simp only [Prod.mk.injEq, Except.ok.injEq] at hok
        obtain ⟨-, hbm⟩ := hok
        subst hbm
        push_neg at h1
        refine ⟨by dsimp only; linarith [ih.1], ?_⟩
        intro r hr
        simp only [List.mem_append, List.mem_singleton] at hr
        rcases hr with hr | rfl
        · exact ih.2 r hr
        · exact hnn
  | step_settle rid actual_usd h hle ih =>
      rename_i bm2
      unfold settle
      split
      · exact ih
      · rename_i r hf
        split
        · exact ih
        · rename_i hs
          have hcost : actual_usd.getD r.reserved_usd ≤ r.reserved_usd := hle r hf
          refine ⟨by dsimp only; linarith [ih.1], ?_⟩
          intro x hx
          refine updateRes_preserves_nonneg ?_ ih.2 x hx
          intro y
          rfl
  | step_release rid h ih =>
      rename_i bm2
      unfold release
      split
      · exact ih
      · rename_i r hf
        split
        · exact ih
        · rename_i hs
          have hmem : r ∈ bm2.reservations := List.mem_of_find?_eq_some hf
          have hr0 : 0 ≤ r.reserved_usd := ih.2 r hmem
          refine ⟨by dsimp only; linarith [ih.1], ?_⟩
          intro x hx
          refine updateRes_preserves_nonneg ?_ ih.2 x hx
          intro y
          rfl
  | step_reap now h ih =>
      rename_i bm2
      unfold reap_expired
      refine ⟨by dsimp only; linarith [ih.1], ?_⟩
      intro x hx
      simp only [List.mem_map] at hx
      rcases hx with ⟨y, hy, rfl⟩
      rw [reap_one_reserved_usd]
      exact ih.2 y hy

/-- C1 amended: over every sequence of reserve, settle, release and
reap_expired operations within one UTC day, starting from a nonnegative
wallet, in which reserve amounts are nonnegative and no settle reports an
actual cost above the reserved amount, spent_usd + in_flight_usd stays at or
below the daily cap min(2 USD, 0.5 percent of wallet); and any reserve whose
amount would push the sum over the cap returns the BudgetDeniedError case
with the manager unchanged. -/
theorem c1_budget_cap_invariant :
    (∀ (w : ℚ) (bm : BudgetManager), BudgetReachable w bm →
        bm.spent_usd + bm.in_flight_usd ≤ bm.daily_cap) ∧
    (∀ (bm : BudgetManager) (model_key : String) (amt : ℚ) (corr rid : String) (now : ℚ),
        bm.daily_cap < bm.spent_usd + bm.in_flight_usd + amt →
        reserve bm model_key amt corr rid now = (Except.error (), bm)) := by
  constructor
  · exact fun w bm h => (budget_inv_aux h).1
  · intro bm model_key amt corr rid now hover
    unfold reserve
    rw [if_pos hover]

theorem c1_witness :
    (mkBudgetManager 1000).spent_usd + (mkBudgetManager 1000).in_flight_usd ≤
      (mkBudgetManager 1000).daily_cap ∧
    reserve (mkBudgetManager 1) "model1" 5 "c1" "r1" 0 =
      (Except.error (), mkBudgetManager 1) :=
  ⟨c1_budget_cap_invariant.1 1000 (mkBudgetManager 1000)
     (BudgetReachable.init 1000 (by norm_num)),
   c1_budget_cap_invariant.2 (mkBudgetManager 1) "model1" 5 "c1" "r1" 0
     (by norm_num [mkBudgetManager, compute_daily_cap,
        AI_CAP_USD_USER, AI_CAP_PCT_PER_DAY_DEFAULT])⟩

/-- C1 counterexample: with fully arbitrary arguments the invariant fails:
on a 1000 USD wallet (daily cap 2 USD) a single 0.20 USD reservation settled
with actual_usd = 5 leaves spent + in-flight = 5 > 2, because settle adds
the caller-supplied actual cost without bounding it by the reservation. -/
theorem c1_counterexample :
    ((settle (reserve (mkBudgetManager 1000) "model1" 0.2 "c1" "r1" 0).2
        "r1" (some 5)).2).daily_cap <
      ((settle (reserve (mkBudgetManager 1000) "model1" 0.2 "c1" "r1" 0).2
        "r1" (some 5)).2).spent_usd +
      ((settle (reserve (mkBudgetManager 1000) "model1" 0.2 "c1" "r1" 0).2
        "r1" (some 5)).2).in_flight_usd := by
  norm_num [mkBudgetManager, compute_daily_cap, compute_window_cap, reserve, settle,
    findRes, updateRes, window_sum, AI_CAP_USD_USER, AI_CAP_PCT_PER_DAY_DEFAULT,
    AI_WINDOW_CAP_PCT_OF_DAILY, AI_WINDOW_SEC, AI_ANALYSES_PER_DAY_HARD_CAP,
    DEFAULT_RESERVATION_EXPIRY_SEC]

theorem find?_updateRes (rs : List Reservation) (rid : String)
    (f : Reservation → Reservation)
    (hid : ∀ y, (f y).reservation_id = y.reservation_id) :
    (updateRes rs rid f).find? (fun r => r.reservation_id == rid) =
      (rs.find? (fun r => r.reservation_id == rid)).map f := by
  induction rs with
  | nil => simp [updateRes]
  | cons x rest ih =>
      unfold updateRes
      by_cases hx : (x.reservation_id == rid) = true
      · rw [if_pos hx]
        simp only [List.find?, hid, hx]
        rfl
      · rw [if_neg hx]
        rw [Bool.not_eq_true] at hx
        simp only [List.find?, hid, hx]
        exact ih

theorem find?_map_id_preserved (rs : List Reservation) (rid : String)
    (g : Reservation → Reservation)
    (hid : ∀ y, (g y).reservation_id = y.reservation_id) :
    (rs.map g).find? (fun r => r.reservation_id == rid) =
      (rs.find? (fun r => r.reservation_id == rid)).map g := by
  induction rs with
  | nil => simp
  | cons x rest ih =>
      by_cases hx : (x.reservation_id == rid) = true
      · rw [List.map_cons]
        simp only [List.find?, hid, hx]
        rfl
      · rw [Bool.not_eq_true] at hx
        rw [List.map_cons]
        simp only [List.find?, hid, hx]
        exact ih

theorem settle_eq_of_missing (bm : BudgetManager) (rid : String) (a : Option ℚ)
    (hf : findRes bm rid = none) : settle bm rid a = (false, bm) := by
  unfold settle
  rw [hf]

theorem settle_eq_of_final (bm : BudgetManager) (rid : String) (a : Option ℚ)
    (r : Reservation) (hf : findRes bm rid = some r)
    (hs : r.status ≠ ResStatus.reserved) : settle bm rid a = (false, bm) := by
  unfold settle
  rw [hf]
  dsimp only
  rw [if_pos hs]

theorem settle_eq_of_reserved (bm : BudgetManager) (rid : String) (a : Option ℚ)
    (r : Reservation) (hf : findRes bm rid = some r)
    (hs : r.status = ResStatus.reserved) :
    settle bm rid a =
      (true, { bm with reservations := updateRes bm.reservations rid (fun x => { x with status := ResStatus.settled, actual_usd := some (a.getD r.reserved_usd) }), in_flight_usd := bm.in_flight_usd - r.reserved_usd, spent_usd := bm.spent_usd + a.getD r.reserved_usd }) := by
  unfold settle
  rw [hf]
  dsimp only
  rw [if_neg (by simp [hs])]

theorem reap_one_of_not_reserved (now : ℚ) (r : Reservation)
    (hs : r.status ≠ ResStatus.reserved) : reap_one now r = r := by
  unfold reap_one is_reapable
  rw [if_neg (by simp [hs])]

/-- C8: once a reservation is final, it stays exactly as the finalising call
left it: a second settle after a successful settle returns False with the
manager unchanged, the reaper leaves a settled reservation entry untouched,
and a settle after a force-settle (any non-RESERVED status) returns False
with the manager unchanged, regardless of the actual_usd supplied. -/
theorem c8_settlement_idempotent (bm : BudgetManager) (rid : String)
    (a1 a2 : Option ℚ) (now : ℚ) :
    ((settle bm rid a1).1 = true →
        settle (settle bm rid a1).2 rid a2 = (false, (settle bm rid a1).2) ∧
        findRes (reap_expired (settle bm rid a1).2 now).2 rid =
          findRes (settle bm rid a1).2 rid) ∧
    (∀ r, findRes bm rid = some r → r.status ≠ ResStatus.reserved →
        settle bm rid a2 = (false, bm)) := by
  constructor
  · intro h1
    rcases hf : findRes bm rid with - | r
    · rw [settle_eq_of_missing bm rid a1 hf] at h1
      simp at h1
    · by_cases hs : r.status = ResStatus.reserved
      · have hset := settle_eq_of_reserved bm rid a1 r hf hs
        have hf2 : bm.reservations.find? (fun x => x.reservation_id == rid) = some r := hf
        have hfind2 : findRes (settle bm rid a1).2 rid =
            some { r with status := ResStatus.settled, actual_usd := some (a1.getD r.reserved_usd) } := by
          rw [hset]
          show (updateRes bm.reservations rid _).find? _ = _
          rw [find?_updateRes bm.reservations rid
                (fun x => { x with status := ResStatus.settled, actual_usd := some (a1.getD r.reserved_usd) })
                (fun y => rfl), hf2]
          rfl
        constructor
        · exact settle_eq_of_final _ rid a2 _ hfind2 (by simp)
        · show ((settle bm rid a1).2.reservations.map (reap_one now)).find? _ = _
          rw [find?_map_id_preserved _ _ (reap_one now)
                (fun y => by unfold reap_one; split <;> rfl)]
          have hf3 : (settle bm rid a1).2.reservations.find?
              (fun x => x.reservation_id == rid) =
              some { r with status := ResStatus.settled, actual_usd := some (a1.getD r.reserved_usd) } := hfind2
          rw [hf3, Option.map_some', reap_one_of_not_reserved _ _ (by simp)]
          exact hfind2.symm
      · rw [settle_eq_of_final bm rid a1 r hf hs] at h1
        simp at h1
  · intro r hf hs
    exact settle_eq_of_final bm rid a2 r hf hs

theorem c8_witness :
    (settle (reserve (mkBudgetManager 1000) "model1" 0.1 "c1" "r1" 0).2
        "r1" (some 0.05)).1 = true ∧
    settle (settle (reserve (mkBudgetManager 1000) "model1" 0.1 "c1" "r1" 0).2
        "r1" (some 0.05)).2 "r1" (some 0.07) =
      (false, (settle (reserve (mkBudgetManager 1000) "model1" 0.1 "c1" "r1" 0).2
        "r1" (some 0.05)).2) := by
  have h1 : (settle (reserve (mkBudgetManager 1000) "model1" 0.1 "c1" "r1" 0).2
      "r1" (some 0.05)).1 = true := by
    norm_num [mkBudgetManager, compute_daily_cap, compute_window_cap, reserve, settle,
      findRes, updateRes, window_sum, AI_CAP_USD_USER, AI_CAP_PCT_PER_DAY_DEFAULT,
      AI_WINDOW_CAP_PCT_OF_DAILY, AI_WINDOW_SEC, AI_ANALYSES_PER_DAY_HARD_CAP,
      DEFAULT_RESERVATION_EXPIRY_SEC]
  exact ⟨h1,
    ((c8_settlement_idempotent
        (reserve (mkBudgetManager 1000) "model1" 0.1 "c1" "r1" 0).2
        "r1" (some 0.05) (some 0.07) 0).1 h1).1⟩

theorem lookupTrig_updateTrig (st : TrigState) (k : String × String) (e v : TrigEntry)
    (h : lookupTrig st k = some v) : lookupTrig (updateTrig st k e) k = some e := by
  induction st with
  | nil => simp [lookupTrig] at h
  | cons kv rest ih =>
      unfold updateTrig
      by_cases hk : (kv.1 == k) = true
      · rw [if_pos hk]
        simp [lookupTrig, List.find?]
      · rw [if_neg hk]
        rw [Bool.not_eq_true] at hk
        unfold lookupTrig at h ⊢
        simp only [List.find?, hk] at h ⊢
        exact ih h

theorem run_trigger_seq_snoc (mk tt : String) (evs : List (String × ℚ)) :
    ∀ (st : TrigState) (ev : String × ℚ), evs ≠ [] →
    run_trigger_seq mk tt st (evs ++ [ev]) =
      record_trigger (run_trigger_seq mk tt st evs).2 mk tt ev.1 ev.2 := by
  induction evs with
  | nil => intro st ev hne; exact absurd rfl hne
  | cons x rest ih =>
      intro st ev hne
      cases rest with
      | nil =>
          obtain ⟨sid, t⟩ := x
          obtain ⟨sid2, t2⟩ := ev
          rfl
      | cons y rest2 =>
          obtain ⟨sid, t⟩ := x
          have h1 : run_trigger_seq mk tt st (((sid, t) :: y :: rest2) ++ [ev]) =
              run_trigger_seq mk tt (record_trigger st mk tt sid t).2
                ((y :: rest2) ++ [ev]) := rfl
          rw [h1, ih _ ev (by simp)]
          rfl

theorem collapse_consecutive_snoc (b : String) :
    ∀ (xs : List String), xs ≠ [] →
    (collapse_consecutive (xs ++ [b])).length =
      if xs.getLast? = some b then (collapse_consecutive xs).length
      else (collapse_consecutive xs).length + 1 := by
  intro xs
  induction xs with
  | nil => intro hne; exact absurd rfl hne
  | cons a rest ih =>
      intro hne
      cases rest with
      | nil =>
          by_cases hab : a = b
          · subst hab
            simp [collapse_consecutive]
          · simp [collapse_consecutive, hab]
      | cons c rest2 =>
          have ih2 := ih (by simp)
          have hgl : (a :: c :: rest2).getLast? = (c :: rest2).getLast? := by
            rw [List.getLast?_cons_cons]
          show (collapse_consecutive (a :: c :: (rest2 ++ [b]))).length = _
          by_cases hac : a = c
          · subst hac
            rw [show collapse_consecutive (a :: a :: (rest2 ++ [b])) =
                  collapse_consecutive (a :: (rest2 ++ [b])) from by
                simp [collapse_consecutive]]
            rw [show collapse_consecutive (a :: a :: rest2) =
                  collapse_consecutive (a :: rest2) from by
                simp [collapse_consecutive]]
            rw [hgl]
            exact ih2
          · rw [show collapse_consecutive (a :: c :: (rest2 ++ [b])) =
                  a :: collapse_consecutive (c :: (rest2 ++ [b])) from by
                simp [collapse_consecutive, hac]]
            rw [show collapse_consecutive (a :: c :: rest2) =
                  a :: collapse_consecutive (c :: rest2) from by
                simp [collapse_consecutive, hac]]
            rw [hgl]
            rw [List.length_cons, List.length_cons]
            rw [show (c :: rest2) ++ [b] = c :: (rest2 ++ [b]) from rfl] at ih2
            rw [ih2]
            split <;> rfl

theorem run_trigger_state (mk tt : String) :
    ∀ (evs : List (String × ℚ)), evs ≠ [] →
    ∃ e, lookupTrig (run_trigger_seq mk tt emptyTrigState evs).2 (mk, tt) = some e ∧
      (evs.map Prod.snd).head? = some e.first_seen ∧
      e.count = (collapse_consecutive (evs.map Prod.fst)).length ∧
      (evs.map Prod.fst).getLast? = some e.last_snapshot_id := by
  intro evs
  induction evs using List.reverseRecOn with
  | nil => intro hne; exact absurd rfl hne
  | append_singleton evs ev ih =>
      intro hne
      obtain ⟨sid, t⟩ := ev
      by_cases hevs : evs = []
      · subst hevs
        refine ⟨{ first_seen := t, count := 1, last_snapshot_id := sid }, ?_, ?_, ?_, ?_⟩
        · simp [run_trigger_seq, record_trigger, lookupTrig, emptyTrigState, List.find?]
        · rfl
        · rfl
        · rfl
      · obtain ⟨e, hlook, hhead, hcount, hlast⟩ := ih hevs
        rw [run_trigger_seq_snoc mk tt evs _ _ hevs]
        unfold record_trigger
        dsimp only
        rw [hlook]
        dsimp only
        have hmapfst : ((evs ++ [(sid, t)]).map Prod.fst) = evs.map Prod.fst ++ [sid] := by
          simp
        have hmapsnd : ((evs ++ [(sid, t)]).map Prod.snd) = evs.map Prod.snd ++ [t] := by
          simp
        have hheadkeep : ((evs ++ [(sid, t)]).map Prod.snd).head? = some e.first_seen := by
          rw [hmapsnd]
          rcases hq : evs.map Prod.snd with - | ⟨z, zs⟩
          · rw [hq] at hhead; simp at hhead
          · rw [hq] at hhead
            simpa using hhead
        have hfstne : evs.map Prod.fst ≠ [] := by
          intro hq
          have := congrArg List.length hq
          simp at this
          simp [this] at hevs
        have hcoll := collapse_consecutive_snoc sid (evs.map Prod.fst) hfstne
        by_cases hsame : (e.last_snapshot_id == sid) = true
        · rw [if_pos hsame]
          have hsame2 : e.last_snapshot_id = sid := by
            exact eq_of_beq hsame
          refine ⟨e, hlook, hheadkeep, ?_, ?_⟩
          · rw [hmapfst, hcoll, if_pos (by rw [hlast, hsame2])]
            exact hcount
          · rw [hmapfst, List.getLast?_concat, hsame2]
        · rw [if_neg hsame]
          rw [Bool.not_eq_true] at hsame
          have hsame2 : e.last_snapshot_id ≠ sid := by
            intro hq
            rw [hq] at hsame
            simp at hsame
          refine ⟨{ e with count := e.count + 1, last_snapshot_id := sid }, ?_, ?_, ?_, ?_⟩
          · split
            · exact lookupTrig_updateTrig _ _ _ _ hlook
            · exact lookupTrig_updateTrig _ _ _ _ hlook
          · exact hheadkeep
          · show e.count + 1 = _
            rw [hmapfst, hcoll, if_neg (by rw [hlast]; simp [hsame2])]
            rw [hcount]
          · rw [hmapfst, List.getLast?_concat]

/-- C4 amended: record_trigger reports the persistence threshold met only if
the trigger was counted on at least 3 calls, where a call is counted exactly
when its snapshot id differs from the immediately preceding recorded id
(consecutive duplicates are never counted, but a revisited earlier id is),
and the reporting call comes at least 6 seconds after the key was first
seen. -/
theorem c4_trigger_persistence (mk tt sid : String) (now : ℚ) (st : TrigState)
    (evs : List (String × ℚ)) :
    ((run_trigger_seq mk tt emptyTrigState evs).1 = true →
        TRIGGER_PERSIST_UPDATES ≤ (collapse_consecutive (evs.map Prod.fst)).length ∧
        ∃ t0 tn, (evs.map Prod.snd).head? = some t0 ∧
          (evs.map Prod.snd).getLast? = some tn ∧
          t0 + TRIGGER_PERSIST_MIN_SEC ≤ tn) ∧
    (∀ e, lookupTrig st (mk, tt) = some e → e.last_snapshot_id = sid →
        record_trigger st mk tt sid now = (false, st)) := by
  constructor
  · intro hrun
    induction evs using List.reverseRecOn with
    | nil => simp [run_trigger_seq] at hrun
    | append_singleton evs ev ih =>
        clear ih
        obtain ⟨sid2, t2⟩ := ev
        by_cases hevs : evs = []
        · subst hevs
          simp only [List.nil_append] at hrun
          unfold run_trigger_seq record_trigger at hrun
          simp [lookupTrig, emptyTrigState] at hrun
        · obtain ⟨e, hlook, hhead, hcount, hlast⟩ := run_trigger_state mk tt evs hevs
          rw [run_trigger_seq_snoc mk tt evs _ _ hevs] at hrun
          unfold record_trigger at hrun
          dsimp only at hrun
          rw [hlook] at hrun
          dsimp only at hrun
          by_cases hsame : (e.last_snapshot_id == sid2) = true
          · rw [if_pos hsame] at hrun
            simp at hrun
          · rw [if_neg hsame] at hrun
            rw [Bool.not_eq_true] at hsame
            have hsame2 : e.last_snapshot_id ≠ sid2 := by
              intro hq
              rw [hq] at hsame
              simp at hsame
            split at hrun
            · rename_i hcond
              obtain ⟨hc1, hc2⟩ := hcond
              constructor
              · have hmapfst : ((evs ++ [(sid2, t2)]).map Prod.fst) =
                    evs.map Prod.fst ++ [sid2] := by simp
                have hfstne : evs.map Prod.fst ≠ [] := by
                  intro hq
                  have := congrArg List.length hq
                  simp at this
                  simp [this] at hevs
                rw [hmapfst, collapse_consecutive_snoc sid2 _ hfstne,
                    if_neg (by rw [hlast]; simp [hsame2])]
                rw [← hcount]
                exact hc1
              · refine ⟨e.first_seen, t2, ?_, ?_, ?_⟩
                · have hmapsnd : ((evs ++ [(sid2, t2)]).map Prod.snd) =
                      evs.map Prod.snd ++ [t2] := by simp
                  rw [hmapsnd]
                  rcases hq : evs.map Prod.snd with - | ⟨z, zs⟩
                  · rw [hq] at hhead; simp at hhead
                  · rw [hq] at hhead
                    simpa using hhead
                · rw [show ((evs ++ [(sid2, t2)]).map Prod.snd) =
                      evs.map Prod.snd ++ [t2] from by simp, List.getLast?_concat]
                · linarith
            · simp at hrun
  · intro e hlook hsid
    unfold record_trigger
    dsimp only
    rw [hlook]
    dsimp only
    rw [if_pos (by simp [hsid])]

/-- C4 counterexample: the sequence A, B, A at times 0, 1, 7 makes
record_trigger report the threshold met even though only two distinct
snapshot ids ever fired, and the id A was counted twice, contradicting both
the three-distinct-ids requirement and the no-double-count rule (the source
only remembers the immediately preceding snapshot id). -/
theorem c4_counterexample :
    (run_trigger_seq "m1" "mid_move" emptyTrigState
        [("A", 0), ("B", 1), ("A", 7)]).1 = true ∧
    [("A", (0 : ℚ)), ("B", 1), ("A", 7)].map Prod.fst = ["A", "B", "A"] ∧
    (∀ x ∈ (["A", "B", "A"] : List String), x = "A" ∨ x = "B") ∧
    ("A" : String) ≠ "B" := by
  refine ⟨?_, by simp, by decide, by decide⟩
  norm_num [run_trigger_seq, record_trigger, lookupTrig, updateTrig, emptyTrigState,
    List.find?, TRIGGER_PERSIST_UPDATES, TRIGGER_PERSIST_MIN_SEC]
  simp

theorem c4_witness :
    (TRIGGER_PERSIST_UPDATES ≤
        (collapse_consecutive ([("A", (0 : ℚ)), ("B", 3), ("C", 7)].map Prod.fst)).length ∧
      ∃ t0 tn, ([("A", (0 : ℚ)), ("B", 3), ("C", 7)].map Prod.snd).head? = some t0 ∧
        ([("A", (0 : ℚ)), ("B", 3), ("C", 7)].map Prod.snd).getLast? = some tn ∧
        t0 + TRIGGER_PERSIST_MIN_SEC ≤ tn) ∧
    record_trigger [(("m1", "mid_move"), ⟨0, 1, "A"⟩)] "m1" "mid_move" "A" 5 =
      (false, [(("m1", "mid_move"), ⟨0, 1, "A"⟩)]) := by
  constructor
  · refine (c4_trigger_persistence "m1" "mid_move" "A" 0 []
      [("A", (0 : ℚ)), ("B", 3), ("C", 7)]).1 ?_
    norm_num [run_trigger_seq, record_trigger, lookupTrig, updateTrig, emptyTrigState,
      List.find?, TRIGGER_PERSIST_UPDATES, TRIGGER_PERSIST_MIN_SEC]
    simp
  · exact (c4_trigger_persistence "m1" "mid_move" "A" 5
      [(("m1", "mid_move"), ⟨0, 1, "A"⟩)] []).2 ⟨0, 1, "A"⟩
      (by simp [lookupTrig, List.find?]) rfl

/-- C2: when the stored bot state verifies and is LIVE_ARMED or LIVE_TRADING
with counter N, initialise_bot_state persists and returns OBSERVE_ONLY with
counter N + 1 carrying a signature that verifies; when the stored signature
does not verify, it raises StateSignatureError (the error case) instead of
returning a state.  Stated for every keyed MAC function, every secret and
every startup timestamp. -/
theorem c2_init_forces_observe_only (mac : String → String → List ℕ)
    (secret now : String) (bs : BotState) :
    (verify_signature mac bs secret = true →
      (bs.state = BSName.LIVE_ARMED ∨ bs.state = BSName.LIVE_TRADING) →
      ∃ out, initialise_bot_state mac (some bs) secret now = Except.ok out ∧
        out.result.state = BSName.OBSERVE_ONLY ∧
        out.result.counter = bs.counter + 1 ∧
        out.saved = some out.result ∧
        verify_signature mac out.result secret = true) ∧
    (verify_signature mac bs secret = false →
      initialise_bot_state mac (some bs) secret now = Except.error ()) := by
  constructor
  · intro hv hlive
    refine ⟨{ result := sign_state mac { bs with state := BSName.OBSERVE_ONLY, counter := bs.counter + 1, ts_utc := now, armed_until_utc := none } secret, saved := some (sign_state mac { bs with state := BSName.OBSERVE_ONLY, counter := bs.counter + 1, ts_utc := now, armed_until_utc := none } secret) }, ?_, ?_, ?_, ?_, ?_⟩
    · unfold initialise_bot_state
      dsimp only
      rw [if_neg (by rw [hv]; simp), if_pos hlive]
    · rfl
    · rfl
    · rfl
    · unfold verify_signature sign_state
      simp
  · intro hv
    unfold initialise_bot_state
    dsimp only
    rw [if_pos (by rw [hv])]

theorem c2_witness :
    (verify_signature (fun s m => [s.length, m.length])
        { state := BSName.LIVE_TRADING,
          counter := 5,
          ts_utc := "T5",
          armed_until_utc := none,
          halt_until_utc := none,
          halt_resume_state := none,
          state_signature := compute_state_signature (fun s m => [s.length, m.length]) BSName.LIVE_TRADING 5 "T5" "sec" }
        "sec" = true ∧
      ∃ out, initialise_bot_state (fun s m => [s.length, m.length])
          (some
            { state := BSName.LIVE_TRADING,
              counter := 5,
              ts_utc := "T5",
              armed_until_utc := none,
              halt_until_utc := none,
              halt_resume_state := none,
              state_signature := compute_state_signature (fun s m => [s.length, m.length]) BSName.LIVE_TRADING 5 "T5" "sec" })
          "sec" "T6" = Except.ok out ∧
        out.result.state = BSName.OBSERVE_ONLY ∧
        out.result.counter = (5 : ℤ) + 1 ∧
        out.saved = some out.result ∧
        verify_signature (fun s m => [s.length, m.length]) out.result "sec" = true) ∧
    initialise_bot_state (fun s m => [s.length, m.length])
        (some
          { state := BSName.LIVE_TRADING,
            counter := 5,
            ts_utc := "T5",
            armed_until_utc := none,
            halt_until_utc := none,
            halt_resume_state := none,
            state_signature := [] })
        "sec" "T6" = Except.error () := by
  constructor
  · have hv : verify_signature (fun s m => [s.length, m.length])
        { state := BSName.LIVE_TRADING,
          counter := 5,
          ts_utc := "T5",
          armed_until_utc := none,
          halt_until_utc := none,
          halt_resume_state := none,
          state_signature := compute_state_signature (fun s m => [s.length, m.length]) BSName.LIVE_TRADING 5 "T5" "sec" }
        "sec" = true := by
      unfold verify_signature
      simp
    exact ⟨hv, (c2_init_forces_observe_only (fun s m => [s.length, m.length])
      "sec" "T6" _).1 hv (Or.inr rfl)⟩
  · refine (c2_init_forces_observe_only (fun s m => [s.length, m.length])
      "sec" "T6" _).2 ?_
    unfold verify_signature compute_state_signature
    simp

/-- C7 amended: verify_arming_file succeeds exactly when the file exists and
parses, its process_start_unix_ms equals the current process start, its age
is at most 900 seconds, and its signature over (process_start, nonce1)
matches, with a distinct message for each of the four failures (and the five
messages pairwise distinct); however the file is NOT consumed on use: the
call leaves the file exactly as it found it, so a successful verification
validates again (it is step2_confirm that consumes nonce1 instead). -/
theorem c7_verify_arming_file (mac : String → String → String) (process_start : ℤ)
    (secret : String) (armed0 : Bool) (file : ArmingFile) (now : ℚ) :
    ((verify_arming_file mac process_start secret armed0 file now).ok = true ↔
      ∃ r, file = ArmingFile.content r ∧
        r.process_start_unix_ms = some process_start ∧
        now - r.armed_at_utc.getD 0 ≤ ARMING_FILE_MAX_AGE_SEC ∧
        r.arming_signature =
          some (mac secret (arming_sig_payload process_start r.nonce1))) ∧
    (verify_arming_file mac process_start secret armed0 file now).file_after = file ∧
    (file = ArmingFile.missing →
      (verify_arming_file mac process_start secret armed0 file now).msg =
        MSG_FILE_NOT_FOUND) ∧
    (file = ArmingFile.unreadable →
      (verify_arming_file mac process_start secret armed0 file now).msg =
        MSG_FILE_UNREADABLE) ∧
    (∀ r, file = ArmingFile.content r →
      r.process_start_unix_ms ≠ some process_start →
      (verify_arming_file mac process_start secret armed0 file now).msg =
        MSG_WRONG_PROCESS) ∧
    (∀ r, file = ArmingFile.content r →
      r.process_start_unix_ms = some process_start →
      ARMING_FILE_MAX_AGE_SEC < now - r.armed_at_utc.getD 0 →
      (verify_arming_file mac process_start secret armed0 file now).msg =
        MSG_FILE_EXPIRED) ∧
    (∀ r, file = ArmingFile.content r →
      r.process_start_unix_ms = some process_start →
      now - r.armed_at_utc.getD 0 ≤ ARMING_FILE_MAX_AGE_SEC →
      r.arming_signature ≠
        some (mac secret (arming_sig_payload process_start r.nonce1)) →
      (verify_arming_file mac process_start secret armed0 file now).msg =
        MSG_SIGNATURE_MISMATCH) ∧
    ((verify_arming_file mac process_start secret armed0 file now).ok = true →
      (verify_arming_file mac process_start secret armed0 file now).msg = MSG_ARMED) ∧
    (MSG_FILE_NOT_FOUND ≠ MSG_FILE_UNREADABLE ∧ MSG_FILE_NOT_FOUND ≠ MSG_WRONG_PROCESS ∧
     MSG_FILE_NOT_FOUND ≠ MSG_FILE_EXPIRED ∧ MSG_FILE_NOT_FOUND ≠ MSG_SIGNATURE_MISMATCH ∧
     MSG_FILE_UNREADABLE ≠ MSG_WRONG_PROCESS ∧ MSG_FILE_UNREADABLE ≠ MSG_FILE_EXPIRED ∧
     MSG_FILE_UNREADABLE ≠ MSG_SIGNATURE_MISMATCH ∧ MSG_WRONG_PROCESS ≠ MSG_FILE_EXPIRED ∧
     MSG_WRONG_PROCESS ≠ MSG_SIGNATURE_MISMATCH ∧ MSG_FILE_EXPIRED ≠ MSG_SIGNATURE_MISMATCH) := by
  refine ⟨?_, ?_, ?_, ?_, ?_, ?_, ?_, ?_, ?_⟩
  · constructor
    · intro hok
      cases file with
      | missing => simp [verify_arming_file] at hok
      | unreadable => simp [verify_arming_file] at hok
      | content r =>
          unfold verify_arming_file at hok
          dsimp only at hok
          by_cases h1 : r.process_start_unix_ms ≠ some process_start
          · rw [if_pos h1] at hok
            simp at hok
          · rw [if_neg h1] at hok
            by_cases h2 : ARMING_FILE_MAX_AGE_SEC < now - r.armed_at_utc.getD 0
            · rw [if_pos h2] at hok
              simp at hok
            · rw [if_neg h2] at hok
              by_cases h3 : r.arming_signature ≠
                  some (mac secret (arming_sig_payload process_start r.nonce1))
              · rw [if_pos h3] at hok
                simp at hok
              · push_neg at h1 h2 h3
                exact ⟨r, rfl, h1, h2, h3⟩
    · rintro ⟨r, rfl, hp, ha, hsig⟩
      unfold verify_arming_file
      dsimp only
      rw [if_neg (by simp [hp]), if_neg (by push_neg; exact ha), if_neg (by simp [hsig])]
  · cases file with
    | missing => rfl
    | unreadable => rfl
    | content r =>
        unfold verify_arming_file
        dsimp only
        split_ifs <;> rfl
  · rintro rfl; rfl
  · rintro rfl; rfl
  · rintro r rfl hp
    unfold verify_arming_file
    dsimp only
    rw [if_pos hp]
  · rintro r rfl hp hage
    unfold verify_arming_file
    dsimp only
    rw [if_neg (by simp [hp]), if_pos hage]
  · rintro r rfl hp hage hsig
    unfold verify_arming_file
    dsimp only
    rw [if_neg (by simp [hp]), if_neg (by push_neg; exact hage), if_pos hsig]
  · intro hok
    cases file with
    | missing => simp [verify_arming_file] at hok
    | unreadable => simp [verify_arming_file] at hok
    | content r =>
        unfold verify_arming_file at hok ⊢
        dsimp only at hok ⊢
        by_cases h1 : r.process_start_unix_ms ≠ some process_start
        · rw [if_pos h1] at hok
          simp at hok
        · rw [if_neg h1] at hok ⊢
          by_cases h2 : ARMING_FILE_MAX_AGE_SEC < now - r.armed_at_utc.getD 0
          · rw [if_pos h2] at hok
            simp at hok
          · rw [if_neg h2] at hok ⊢
            by_cases h3 : r.arming_signature ≠
                some (mac secret (arming_sig_payload process_start r.nonce1))
            · rw [if_pos h3] at hok
              simp at hok
            · rw [if_neg h3]
  · refine ⟨?_, ?_, ?_, ?_, ?_, ?_, ?_, ?_, ?_, ?_⟩ <;> decide

theorem c7_witness :
    ((verify_arming_file (fun s m => s ++ "|" ++ m) 1000 "k" false
        (ArmingFile.content
          { armed_at_utc := some 0,
            process_start_unix_ms := some 1000,
            nonce1 := some "n1",
            arming_signature := some ((fun s m => s ++ "|" ++ m) "k" (arming_sig_payload 1000 (some "n1"))) })
        10).ok = true) ∧
    (verify_arming_file (fun s m => s ++ "|" ++ m) 1000 "k" false
        ArmingFile.missing 10).msg = MSG_FILE_NOT_FOUND := by
  constructor
  · exact (c7_verify_arming_file (fun s m => s ++ "|" ++ m) 1000 "k" false _ 10).1.mpr
      ⟨_, rfl, rfl, by norm_num [ARMING_FILE_MAX_AGE_SEC], rfl⟩
  · exact (c7_verify_arming_file (fun s m => s ++ "|" ++ m) 1000 "k" false
      ArmingFile.missing 10).2.2.1 rfl

/-- C7 counterexample: a valid arming file verifies, is left in place
(file_after equals the input file), and verifies again — the claim that a
successfully used arming file is consumed and cannot validate a second time
is false of the code, which never deletes or rewrites the file. -/
theorem c7_counterexample :
    (verify_arming_file (fun s m => s ++ "|" ++ m) 1000 "k" false
        (ArmingFile.content
          { armed_at_utc := some 0,
            process_start_unix_ms := some 1000,
            nonce1 := some "n1",
            arming_signature := some ((fun s m => s ++ "|" ++ m) "k" (arming_sig_payload 1000 (some "n1"))) })
        10).ok = true ∧
    (verify_arming_file (fun s m => s ++ "|" ++ m) 1000 "k" false
        (ArmingFile.content
          { armed_at_utc := some 0,
            process_start_unix_ms := some 1000,
            nonce1 := some "n1",
            arming_signature := some ((fun s m => s ++ "|" ++ m) "k" (arming_sig_payload 1000 (some "n1"))) })
        10).file_after =
      ArmingFile.content
        { armed_at_utc := some 0,
          process_start_unix_ms := some 1000,
          nonce1 := some "n1",
          arming_signature := some ((fun s m => s ++ "|" ++ m) "k" (arming_sig_payload 1000 (some "n1"))) } ∧
    (verify_arming_file (fun s m => s ++ "|" ++ m) 1000 "k" true
        (verify_arming_file (fun s m => s ++ "|" ++ m) 1000 "k" false
          (ArmingFile.content
            { armed_at_utc := some 0,
              process_start_unix_ms := some 1000,
              nonce1 := some "n1",
              arming_signature := some ((fun s m => s ++ "|" ++ m) "k" (arming_sig_payload 1000 (some "n1"))) })
          10).file_after
        20).ok = true := by
  refine ⟨?_, ?_, ?_⟩ <;>
    norm_num [verify_arming_file, arming_sig_payload, ARMING_FILE_MAX_AGE_SEC]

/-- C3 amended: the decision id is the SHA-256 (here the uninterpreted sha
parameter) of the canonical record of (market, candidate, side, p_eff,
entry_price, ev, required_edge, size) where p_eff, entry_price, ev and
required_edge are rounded to 6 decimals but the size is rounded to 2
decimals; the id depends only on that canonical record, so identical inputs
give the identical id, and the client_order_id equals the decision id. -/
theorem c3_decision_id_canonical (sha : DecisionCanonical → String)
    (inp inp2 : DecisionInputs) :
    (make_decision sha inp).decision_id_hex = sha (make_decision_canonical inp) ∧
    (make_decision sha inp).client_order_id = (make_decision sha inp).decision_id_hex ∧
    (make_decision_canonical inp = make_decision_canonical inp2 →
      (make_decision sha inp).decision_id_hex =
        (make_decision sha inp2).decision_id_hex) := by
  refine ⟨rfl, rfl, fun h => ?_⟩
  show sha (make_decision_canonical inp) = sha (make_decision_canonical inp2)
  rw [h]

theorem c3_witness :
    (make_decision (fun c => c.market_id) ⟨"mkt", "cand", 0.5, ⟨"s", "mkt", 0, "WS", 0, 0, none, none, none, none, none, none, [], [], [], false, false⟩, 1, 0, false, 0, 30, 0, true⟩).decision_id_hex =
      (fun (c : DecisionCanonical) => c.market_id)
        (make_decision_canonical ⟨"mkt", "cand", 0.5, ⟨"s", "mkt", 0, "WS", 0, 0, none, none, none, none, none, none, [], [], [], false, false⟩, 1, 0, false, 0, 30, 0, true⟩) ∧
    (make_decision (fun c => c.market_id) ⟨"mkt", "cand", 0.5, ⟨"s", "mkt", 0, "WS", 0, 0, none, none, none, none, none, none, [], [], [], false, false⟩, 1, 0, false, 0, 30, 0, true⟩).decision_id_hex =
      (make_decision (fun c => c.market_id) ⟨"mkt", "cand", 0.5, ⟨"s", "mkt", 0, "WS", 0, 0, none, none, none, none, none, none, [], [], [], false, false⟩, 1, 0, false, 0, 30, 0, true⟩).decision_id_hex :=
  ⟨(c3_decision_id_canonical (fun c => c.market_id) ⟨"mkt", "cand", 0.5, ⟨"s", "mkt", 0, "WS", 0, 0, none, none, none, none, none, none, [], [], [], false, false⟩, 1, 0, false, 0, 30, 0, true⟩ ⟨"mkt", "cand", 0.5, ⟨"s", "mkt", 0, "WS", 0, 0, none, none, none, none, none, none, [], [], [], false, false⟩, 1, 0, false, 0, 30, 0, true⟩).1,
   (c3_decision_id_canonical (fun c => c.market_id) ⟨"mkt", "cand", 0.5, ⟨"s", "mkt", 0, "WS", 0, 0, none, none, none, none, none, none, [], [], [], false, false⟩, 1, 0, false, 0, 30, 0, true⟩ ⟨"mkt", "cand", 0.5, ⟨"s", "mkt", 0, "WS", 0, 0, none, none, none, none, none, none, [], [], [], false, false⟩, 1, 0, false, 0, 30, 0, true⟩).2.2 rfl⟩

/-- C3 counterexample: at order size 1/64 USD the code rounds the size to 2
decimals (0.02) while the claim rounds every numeric field to 6 decimals
(1/64 survives), so the canonical record the code hashes differs from the
canonical record of the claim, and for a hash separating the two sizes the
returned decision id differs from the claimed one. -/
theorem c3_counterexample :
    make_decision_canonical ⟨"mkt", "cand", 0.5, ⟨"s", "mkt", 0, "WS", 0, 0, none, none, none, none, none, none, [], [], [], false, false⟩, 1/64, 0, false, 0, 30, 0, true⟩ ≠
      spec_decision_canonical ⟨"mkt", "cand", 0.5, ⟨"s", "mkt", 0, "WS", 0, 0, none, none, none, none, none, none, [], [], [], false, false⟩, 1/64, 0, false, 0, 30, 0, true⟩ ∧
    (make_decision (fun c => if c.order_size_usd = pyRound 2 ((1 : ℚ)/64) then "X" else "Y") ⟨"mkt", "cand", 0.5, ⟨"s", "mkt", 0, "WS", 0, 0, none, none, none, none, none, none, [], [], [], false, false⟩, 1/64, 0, false, 0, 30, 0, true⟩).decision_id_hex ≠
      (fun (c : DecisionCanonical) => if c.order_size_usd = pyRound 2 ((1 : ℚ)/64) then "X" else "Y")
        (spec_decision_canonical ⟨"mkt", "cand", 0.5, ⟨"s", "mkt", 0, "WS", 0, 0, none, none, none, none, none, none, [], [], [], false, false⟩, 1/64, 0, false, 0, 30, 0, true⟩) := by
  have hsize : pyRound 2 ((1 : ℚ)/64) ≠ pyRound 6 ((1 : ℚ)/64) := by
    norm_num [pyRound, roundHalfEven]
  constructor
  · intro h
    exact hsize (congrArg DecisionCanonical.order_size_usd h)
  · have e1 : (make_decision (fun c => if c.order_size_usd = pyRound 2 ((1 : ℚ)/64) then "X" else "Y") ⟨"mkt", "cand", 0.5, ⟨"s", "mkt", 0, "WS", 0, 0, none, none, none, none, none, none, [], [], [], false, false⟩, 1/64, 0, false, 0, 30, 0, true⟩).decision_id_hex = "X" := by
      show (if (make_decision_canonical ⟨"mkt", "cand", 0.5, ⟨"s", "mkt", 0, "WS", 0, 0, none, none, none, none, none, none, [], [], [], false, false⟩, 1/64, 0, false, 0, 30, 0, true⟩).order_size_usd = pyRound 2 ((1 : ℚ)/64) then "X" else "Y") = "X"
      have hc : (make_decision_canonical ⟨"mkt", "cand", 0.5, ⟨"s", "mkt", 0, "WS", 0, 0, none, none, none, none, none, none, [], [], [], false, false⟩, 1/64, 0, false, 0, 30, 0, true⟩).order_size_usd = pyRound 2 ((1 : ℚ)/64) := rfl
      rw [if_pos hc]
    have e2 : (fun (c : DecisionCanonical) => if c.order_size_usd = pyRound 2 ((1 : ℚ)/64) then "X" else "Y")
        (spec_decision_canonical ⟨"mkt", "cand", 0.5, ⟨"s", "mkt", 0, "WS", 0, 0, none, none, none, none, none, none, [], [], [], false, false⟩, 1/64, 0, false, 0, 30, 0, true⟩) = "Y" := by
      show (if (spec_decision_canonical ⟨"mkt", "cand", 0.5, ⟨"s", "mkt", 0, "WS", 0, 0, none, none, none, none, none, none, [], [], [], false, false⟩, 1/64, 0, false, 0, 30, 0, true⟩).order_size_usd = pyRound 2 ((1 : ℚ)/64) then "X" else "Y") = "Y"
      have hc2 : ¬((spec_decision_canonical ⟨"mkt", "cand", 0.5, ⟨"s", "mkt", 0, "WS", 0, 0, none, none, none, none, none, none, [], [], [], false, false⟩, 1/64, 0, false, 0, 30, 0, true⟩).order_size_usd = pyRound 2 ((1 : ℚ)/64)) := fun h => hsize h.symm
      rw [if_neg hc2]
    rw [e1, e2]
    decide

theorem lookupPend_removePend_self (p : PendMap) (k : String) :
    lookupPend (removePend p k) k = none := by
  induction p with
  | nil => rfl
  | cons kv rest ih =>
      unfold removePend at ih ⊢
      by_cases hk : (kv.1 == k) = true
      · simp only [List.filter, hk, Bool.not_true]
        exact ih
      · rw [Bool.not_eq_true] at hk
        simp only [List.filter, hk, Bool.not_false]
        unfold lookupPend at ih ⊢
        simp only [List.find?, hk]
        exact ih

theorem lookupPend_removePend_ne (p : PendMap) (k cid : String) (h : k ≠ cid) :
    lookupPend (removePend p k) cid = lookupPend p cid := by
  induction p with
  | nil => rfl
  | cons kv rest ih =>
      unfold removePend at ih ⊢
      by_cases hk : (kv.1 == k) = true
      · have hk2 : kv.1 = k := eq_of_beq hk
        have hcid : (kv.1 == cid) = false := by
          rw [hk2]
          exact beq_eq_false_iff_ne.mpr h
        simp only [List.filter, hk, Bool.not_true]
        unfold lookupPend at ih ⊢
        simp only [List.find?, hcid]
        exact ih
      · rw [Bool.not_eq_true] at hk
        simp only [List.filter, hk, Bool.not_false]
        unfold lookupPend at ih ⊢
        simp only [List.find?]
        cases hq : (kv.1 == cid) with
        | true => rfl
        | false => exact ih

theorem lookupPend_insertPend_self (p : PendMap) (k : String) (e : PendingThrough)
    (h : lookupPend p k = none) : lookupPend (insertPend p k e) k = some e := by
  unfold lookupPend at h ⊢
  unfold insertPend
  rw [List.find?_append]
  rw [Option.map_eq_none'] at h
  rw [h]
  simp [List.find?]

theorem lookupPend_insertPend_ne (p : PendMap) (k cid : String) (e : PendingThrough)
    (h : k ≠ cid) : lookupPend (insertPend p k e) cid = lookupPend p cid := by
  unfold lookupPend insertPend
  rw [List.find?_append]
  have h2 : List.find? (fun kv => kv.1 == cid) [(k, e)] = none := by
    simp [List.find?, beq_eq_false_iff_ne.mpr h]
  rw [h2]
  cases List.find? (fun kv => kv.1 == cid) p <;> rfl

theorem check_fill_pending_other (p : PendMap) (k side : String)
    (limit current now : ℚ) (cid : String) (h : k ≠ cid) :
    lookupPend (check_fill p k side limit current now).2 cid = lookupPend p cid := by
  unfold check_fill
  by_cases hth : (decide (current ≤ limit - TICK_SIZE)) = true
  · rw [if_pos hth]
    dsimp only
    cases hl : lookupPend p k with
    | none =>
        dsimp only
        cases hl2 : lookupPend (insertPend p k { first_through_at := now, through_price := current }) k with
        | none => exact lookupPend_insertPend_ne p k cid _ h
        | some en =>
            dsimp only
            split
            · rw [lookupPend_removePend_ne _ k cid h]
              exact lookupPend_insertPend_ne p k cid _ h
            · exact lookupPend_insertPend_ne p k cid _ h
    | some en0 =>
        dsimp only
        cases hl2 : lookupPend p k with
        | none => rfl
        | some en =>
            dsimp only
            split
            · exact lookupPend_removePend_ne _ k cid h
            · rfl
  · rw [if_neg hth]
    exact lookupPend_removePend_ne _ k cid h

theorem check_fill_not_through (p : PendMap) (k side : String)
    (limit current now : ℚ) (h : ¬(current ≤ limit - TICK_SIZE)) :
    check_fill p k side limit current now = (none, removePend p k) := by
  unfold check_fill
  rw [if_neg (by simpa using h)]

theorem check_fill_through_fresh (p : PendMap) (k side : String)
    (limit current now : ℚ) (hth : current ≤ limit - TICK_SIZE)
    (hl : lookupPend p k = none) :
    check_fill p k side limit current now =
      (none, insertPend p k { first_through_at := now, through_price := current }) := by
  unfold check_fill
  rw [if_pos (by simpa using hth)]
  dsimp only
  rw [hl]
  dsimp only
  rw [lookupPend_insertPend_self p k _ hl]
  dsimp only
  rw [if_neg (by norm_num [SUSTAIN_SEC])]

theorem check_fill_through_young (p : PendMap) (k side : String)
    (limit current now : ℚ) (en : PendingThrough)
    (hth : current ≤ limit - TICK_SIZE) (hl : lookupPend p k = some en)
    (hy : now - en.first_through_at < SUSTAIN_SEC) :
    check_fill p k side limit current now = (none, p) := by
  unfold check_fill
  rw [if_pos (by simpa using hth)]
  dsimp only
  rw [hl]
  dsimp only
  rw [hl]
  dsimp only
  rw [if_neg (by push_neg; exact hy)]

theorem check_fill_through_fill (p : PendMap) (k side : String)
    (limit current now : ℚ) (en : PendingThrough)
    (hth : current ≤ limit - TICK_SIZE) (hl : lookupPend p k = some en)
    (ho : SUSTAIN_SEC ≤ now - en.first_through_at) :
    check_fill p k side limit current now =
      (some { order_id := k, fill_price := limit, fill_time := now,
              through_price := en.through_price, fee_usd := 0 },
       removePend p k) := by
  unfold check_fill
  rw [if_pos (by simpa using hth)]
  dsimp only
  rw [hl]
  dsimp only
  rw [hl]
  dsimp only
  rw [if_pos ho]

theorem check_fill_fill_shape (p : PendMap) (k side : String)
    (limit current now : ℚ) (f : Fill) (p2 : PendMap)
    (h : check_fill p k side limit current now = (some f, p2)) :
    f.order_id = k ∧ f.fill_price = limit := by
  unfold check_fill at h
  by_cases hth : (decide (current ≤ limit - TICK_SIZE)) = true
  · rw [if_pos hth] at h
    dsimp only at h
    cases hl : lookupPend p k with
    | none =>
        rw [hl] at h
        dsimp only at h
        cases hl2 : lookupPend (insertPend p k { first_through_at := now, through_price := current }) k with
        | none => rw [hl2] at h; simp at h
        | some en =>
            rw [hl2] at h
            dsimp only at h
            split at h
            · rw [Prod.mk.injEq] at h
              obtain ⟨hf, -⟩ := h
              rw [Option.some.injEq] at hf
              subst hf
              exact ⟨rfl, rfl⟩
            · simp at h
    | some en0 =>
        rw [hl] at h
        dsimp only at h
        rw [hl] at h
        dsimp only at h
        split at h
        · rw [Prod.mk.injEq] at h
          obtain ⟨hf, -⟩ := h
          rw [Option.some.injEq] at hf
          subst hf
          exact ⟨rfl, rfl⟩
        · simp at h
  · rw [if_neg hth] at h
    simp at h

theorem sustained_through_extend (m : String) (L : ℚ) (trace : List BookUpdate)
    (u : BookUpdate) (h : SustainedThrough m L trace) :
    SustainedThrough m L (trace ++ [u]) := by
  obtain ⟨a, u1, b, u2, c, hdec, h1, h2, hb, ht⟩ := h
  exact ⟨a, u1, b, u2, c ++ [u], by rw [hdec]; simp, h1, h2, hb, ht⟩

theorem pend_witness_extend (m : String) (L : ℚ) (trace : List BookUpdate)
    (u : BookUpdate) (t0 : ℚ) (h : PendWitness m L trace t0)
    (hu : u.market_id = m → ThroughU m L u) :
    PendWitness m L (trace ++ [u]) t0 := by
  obtain ⟨a, u0, b, hdec, h0, ht0, hb⟩ := h
  refine ⟨a, u0, b ++ [u], by rw [hdec]; simp, h0, ht0, ?_⟩
  intro v hv hm
  rcases List.mem_append.mp hv with hv | hv
  · exact hb v hv hm
  · rw [List.mem_singleton] at hv
    subst hv
    exact hu hm

theorem pend_witness_to_sustained (m : String) (L : ℚ) (trace : List BookUpdate)
    (u : BookUpdate) (t0 : ℚ) (h : PendWitness m L trace t0)
    (hu : ThroughU m L u) (ht : t0 + SUSTAIN_SEC ≤ u.now) :
    SustainedThrough m L (trace ++ [u]) := by
  obtain ⟨a, u0, b, hdec, h0, ht0, hb⟩ := h
  refine ⟨a, u0, b, u, [], by rw [hdec]; simp, h0, hu, hb, ?_⟩
  rw [ht0]
  exact ht

theorem process_orders_pending_other (mkt : String) (ask now : ℚ) (cid : String) :
    ∀ (os : List Order) (p : PendMap),
    (∀ o ∈ os, o.client_order_id ≠ cid) →
    lookupPend (process_orders mkt ask now os p).2.1 cid = lookupPend p cid := by
  intro os
  induction os with
  | nil => intro p h; rfl
  | cons x rest ih =>
      intro p h
      have hx : x.client_order_id ≠ cid := h x (List.mem_cons_self x rest)
      have hrest : ∀ o ∈ rest, o.client_order_id ≠ cid :=
        fun o ho => h o (List.mem_cons_of_mem x ho)
      have hkeep : lookupPend (check_fill p x.client_order_id x.side x.limit_price ask now).2 cid =
          lookupPend p cid :=
        check_fill_pending_other p x.client_order_id x.side x.limit_price ask now cid hx
      unfold process_orders
      by_cases hproc : (x.market_id == mkt && decide (x.status = OrdStatus.OPEN)) = true
      · rw [if_pos hproc]
        rcases hcf : check_fill p x.client_order_id x.side x.limit_price ask now with ⟨of, p2⟩
        rw [hcf] at hkeep
        cases of with
        | some f =>
            dsimp only
            rw [ih p2 hrest]
            exact hkeep
        | none =>
            dsimp only
            rw [ih p2 hrest]
            exact hkeep
      · rw [if_neg hproc]
        dsimp only
        exact ih p hrest

theorem process_orders_ids (mkt : String) (ask now : ℚ) :
    ∀ (os : List Order) (p : PendMap),
    (process_orders mkt ask now os p).1.map (fun o => o.client_order_id) =
      os.map (fun o => o.client_order_id) := by
  intro os
  induction os with
  | nil => intro p; rfl
  | cons x rest ih =>
      intro p
      unfold process_orders
      by_cases hproc : (x.market_id == mkt && decide (x.status = OrdStatus.OPEN)) = true
      · rw [if_pos hproc]
        rcases hcf : check_fill p x.client_order_id x.side x.limit_price ask now with ⟨of, p2⟩
        cases of with
        | some f =>
            dsimp only
            rw [List.map_cons, List.map_cons, ih p2]
        | none =>
            dsimp only
            rw [List.map_cons, List.map_cons, ih p2]
      · rw [if_neg hproc]
        dsimp only
        rw [List.map_cons, List.map_cons, ih p]

theorem process_orders_fills_at_limit (mkt : String) (ask now : ℚ) :
    ∀ (os : List Order) (p : PendMap) (f : Fill),
    f ∈ (process_orders mkt ask now os p).2.2 →
    ∃ o, o ∈ os ∧ f.order_id = o.client_order_id ∧ f.fill_price = o.limit_price := by
  intro os
  induction os with
  | nil => intro p f hf; simp [process_orders] at hf
  | cons x rest ih =>
      intro p f hf
      unfold process_orders at hf
      by_cases hproc : (x.market_id == mkt && decide (x.status = OrdStatus.OPEN)) = true
      · rw [if_pos hproc] at hf
        rcases hcf : check_fill p x.client_order_id x.side x.limit_price ask now with ⟨of, p2⟩
        rw [hcf] at hf
        cases of with
        | some f0 =>
            dsimp only at hf
            rcases List.mem_cons.mp hf with rfl | hf2
            · obtain ⟨ho, hp⟩ :=
                check_fill_fill_shape p x.client_order_id x.side x.limit_price ask now f0 p2 hcf
              exact ⟨x, List.mem_cons_self x rest, ho, hp⟩
            · obtain ⟨o, ho, h1, h2⟩ := ih p2 f hf2
              exact ⟨o, List.mem_cons_of_mem x ho, h1, h2⟩
        | none =>
            dsimp only at hf
            obtain ⟨o, ho, h1, h2⟩ := ih p2 f hf
            exact ⟨o, List.mem_cons_of_mem x ho, h1, h2⟩
      · rw [if_neg hproc] at hf
        dsimp only at hf
        obtain ⟨o, ho, h1, h2⟩ := ih p f hf
        exact ⟨o, List.mem_cons_of_mem x ho, h1, h2⟩

theorem process_orders_track (cid m : String) (L : ℚ) (u : BookUpdate)
    (trace : List BookUpdate) :
    ∀ (os : List Order) (p : PendMap),
    (os.map (fun o => o.client_order_id)).Nodup →
    ∀ o, os.find? (fun x => x.client_order_id == cid) = some o →
    o.market_id = m → o.limit_price = L →
    ((o.status = OrdStatus.OPEN ∧
        (lookupPend p cid = none ∨
         ∃ t0 tp, lookupPend p cid = some ⟨t0, tp⟩ ∧ PendWitness m L trace t0)) ∨
     (o.status = OrdStatus.FILLED ∧ SustainedThrough m L trace)) →
    ∃ o2, (process_orders u.market_id u.best_ask u.now os p).1.find?
        (fun x => x.client_order_id == cid) = some o2 ∧
      o2.client_order_id = o.client_order_id ∧ o2.market_id = m ∧ o2.limit_price = L ∧
      ((o2.status = OrdStatus.OPEN ∧
          (lookupPend (process_orders u.market_id u.best_ask u.now os p).2.1 cid = none ∨
           ∃ t0 tp, lookupPend (process_orders u.market_id u.best_ask u.now os p).2.1 cid =
             some ⟨t0, tp⟩ ∧ PendWitness m L (trace ++ [u]) t0)) ∨
       (o2.status = OrdStatus.FILLED ∧ SustainedThrough m L (trace ++ [u]))) := by
  intro os
  induction os with
  | nil =>
      intro p hnd o hfind hm hL hinv
      simp at hfind
  | cons x rest ih =>
      intro p hnd o hfind hm hL hinv
      by_cases hx : (x.client_order_id == cid) = true
      · simp only [List.find?_cons, hx] at hfind
        rw [Option.some.injEq] at hfind
        have hxo := hfind.symm
        subst hxo
        have hcid : o.client_order_id = cid := eq_of_beq hx
        have hfindhead : ∀ (rest2 : List Order),
            (o :: rest2).find? (fun y => y.client_order_id == cid) = some o := by
          intro rest2
          simp only [List.find?_cons, hx]
        have hfindfilled : ∀ (o2 : Order) (rest2 : List Order),
            o2.client_order_id = o.client_order_id →
            (o2 :: rest2).find? (fun y => y.client_order_id == cid) = some o2 := by
          intro o2 rest2 hq
          simp only [List.find?_cons, hq, hx]
        have hnd2 := List.nodup_cons.mp hnd
        have hrest_ne : ∀ y ∈ rest, y.client_order_id ≠ cid := by
          intro y hy hq
          have hmem : o.client_order_id ∈ List.map (fun z => z.client_order_id) rest := by
            rw [hcid, ← hq]
            exact List.mem_map_of_mem _ hy
          exact hnd2.1 hmem
        unfold process_orders
        by_cases hproc : (o.market_id == u.market_id && decide (o.status = OrdStatus.OPEN)) = true
        · rw [if_pos hproc]
          rw [Bool.and_eq_true] at hproc
          have hmarket : o.market_id = u.market_id := eq_of_beq hproc.1
          have hstat : o.status = OrdStatus.OPEN := of_decide_eq_true hproc.2
          have hum : u.market_id = m := by rw [← hmarket, hm]
          rcases hinv with ⟨-, hpend⟩ | ⟨hfill, -⟩
          · by_cases hth : u.best_ask ≤ L - TICK_SIZE
            · rcases hpend with hnone | ⟨t0, tp, hsome, hwit⟩
              · have hcf := check_fill_through_fresh p o.client_order_id o.side
                  o.limit_price u.best_ask u.now (by rw [hL]; exact hth)
                  (by rw [hcid]; exact hnone)
                rw [hcf]
                dsimp only
                refine ⟨o, hfindhead _, rfl, hm, hL, Or.inl ⟨hstat, Or.inr ?_⟩⟩
                refine ⟨u.now, u.best_ask, ?_, ?_⟩
                · rw [process_orders_pending_other _ _ _ _ rest _ hrest_ne]
                  rw [← hcid]
                  exact lookupPend_insertPend_self p o.client_order_id _ (by rw [hcid]; exact hnone)
                · exact ⟨trace, u, [], by simp, ⟨hum, hth⟩, rfl, by simp⟩
              · by_cases hsus : SUSTAIN_SEC ≤ u.now - t0
                · have hcf := check_fill_through_fill p o.client_order_id o.side
                    o.limit_price u.best_ask u.now ⟨t0, tp⟩ (by rw [hL]; exact hth)
                    (by rw [hcid]; exact hsome) hsus
                  rw [hcf]
                  dsimp only
                  refine ⟨_, hfindfilled _ _ rfl, rfl, hm, hL, Or.inr ⟨rfl, ?_⟩⟩
                  exact pend_witness_to_sustained m L trace u t0 hwit ⟨hum, hth⟩ (by linarith)
                · have hcf := check_fill_through_young p o.client_order_id o.side
                    o.limit_price u.best_ask u.now ⟨t0, tp⟩ (by rw [hL]; exact hth)
                    (by rw [hcid]; exact hsome) (by push_neg at hsus; exact hsus)
                  rw [hcf]
                  dsimp only
                  refine ⟨o, hfindhead _, rfl, hm, hL, Or.inl ⟨hstat, Or.inr ?_⟩⟩
                  refine ⟨t0, tp, ?_, ?_⟩
                  · rw [process_orders_pending_other _ _ _ _ rest _ hrest_ne]
                    exact hsome
                  · exact pend_witness_extend m L trace u t0 hwit (fun _ => ⟨hum, hth⟩)
            · have hcf := check_fill_not_through p o.client_order_id o.side
                o.limit_price u.best_ask u.now (by rw [hL]; exact hth)
              rw [hcf]
              dsimp only
              refine ⟨o, hfindhead _, rfl, hm, hL, Or.inl ⟨hstat, Or.inl ?_⟩⟩
              rw [process_orders_pending_other _ _ _ _ rest _ hrest_ne]
              rw [← hcid]
              exact lookupPend_removePend_self p o.client_order_id
          · exfalso
            rw [hfill] at hproc
            simp at hproc
        · rw [if_neg hproc]
          dsimp only
          refine ⟨o, hfindhead _, rfl, hm, hL, ?_⟩
          rcases hinv with ⟨hopen, hpend⟩ | ⟨hfill, hsust⟩
          · have hnm : u.market_id ≠ m := by
              intro hq
              apply hproc
              rw [Bool.and_eq_true]
              exact ⟨beq_iff_eq.mpr (by rw [hm, ← hq]), decide_eq_true hopen⟩
            refine Or.inl ⟨hopen, ?_⟩
            rcases hpend with hnone | ⟨t0, tp, hsome, hwit⟩
            · refine Or.inl ?_
              rw [process_orders_pending_other _ _ _ _ rest _ hrest_ne]
              exact hnone
            · refine Or.inr ⟨t0, tp, ?_, ?_⟩
              · rw [process_orders_pending_other _ _ _ _ rest _ hrest_ne]
                exact hsome
              · exact pend_witness_extend m L trace u t0 hwit
                  (fun hq => absurd hq hnm)
          · exact Or.inr ⟨hfill, sustained_through_extend m L trace u hsust⟩
      · have hxfalse : (x.client_order_id == cid) = false := by
          rw [← Bool.not_eq_true]
          exact hx
        simp only [List.find?_cons, hxfalse] at hfind
        have hfindskip : ∀ (o2 : Order) (rest2 : List Order) (oo : Order),
            o2.client_order_id = x.client_order_id →
            rest2.find? (fun y => y.client_order_id == cid) = some oo →
            (o2 :: rest2).find? (fun y => y.client_order_id == cid) = some oo := by
          intro o2 rest2 oo hq hfq
          simp only [List.find?_cons, hq, hxfalse]
          exact hfq
        have hxne : x.client_order_id ≠ cid := by
          intro hq
          rw [hq] at hxfalse
          simp at hxfalse
        have hnd2 := List.nodup_cons.mp hnd
        have hkeep : lookupPend (check_fill p x.client_order_id x.side x.limit_price
            u.best_ask u.now).2 cid = lookupPend p cid :=
          check_fill_pending_other p x.client_order_id x.side x.limit_price
            u.best_ask u.now cid hxne
        unfold process_orders
        by_cases hproc : (x.market_id == u.market_id && decide (x.status = OrdStatus.OPEN)) = true
        · rw [if_pos hproc]
          rcases hcf : check_fill p x.client_order_id x.side x.limit_price u.best_ask u.now
            with ⟨of, p2⟩
          rw [hcf] at hkeep
          have hinv2 : (o.status = OrdStatus.OPEN ∧
              (lookupPend p2 cid = none ∨
               ∃ t0 tp, lookupPend p2 cid = some ⟨t0, tp⟩ ∧ PendWitness m L trace t0)) ∨
              (o.status = OrdStatus.FILLED ∧ SustainedThrough m L trace) := by
            rcases hinv with ⟨hopen, hpend⟩ | hf
            · refine Or.inl ⟨hopen, ?_⟩
              rcases hpend with hnone | ⟨t0, tp, hsome, hwit⟩
              · exact Or.inl (by rw [hkeep]; exact hnone)
              · exact Or.inr ⟨t0, tp, by rw [hkeep]; exact hsome, hwit⟩
            · exact Or.inr hf
          obtain ⟨o2, hfind2, hido, hm2, hL2, hrest2⟩ :=
            ih p2 hnd2.2 o hfind hm hL hinv2
          cases of with
          | some f =>
              dsimp only
              exact ⟨o2, hfindskip _ _ _ rfl hfind2, hido, hm2, hL2, hrest2⟩
          | none =>
              dsimp only
              exact ⟨o2, hfindskip _ _ _ rfl hfind2, hido, hm2, hL2, hrest2⟩
        · rw [if_neg hproc]
          dsimp only
          obtain ⟨o2, hfind2, hido, hm2, hL2, hrest2⟩ :=
            ih p hnd2.2 o hfind hm hL hinv
          exact ⟨o2, hfindskip _ _ _ rfl hfind2, hido, hm2, hL2, hrest2⟩

theorem engine_track_step (cid m : String) (L : ℚ) (trace : List BookUpdate)
    (u : BookUpdate) (e : Engine) (h : EngineTrack cid m L trace e) :
    EngineTrack cid m L (trace ++ [u])
      (process_book_update e u.market_id u.best_ask u.best_bid u.now).2 := by
  obtain ⟨hnd, o, hfind, hcid, hm, hL, hinv⟩ := h
  unfold EngineTrack process_book_update findOrder
  dsimp only
  constructor
  · rw [process_orders_ids]
    exact hnd
  · obtain ⟨o2, hfind2, hid2, hm2, hL2, hinv2⟩ :=
      process_orders_track cid m L u trace e.orders e.pending hnd o hfind hm hL hinv
    exact ⟨o2, hfind2, by rw [hid2]; exact hcid, hm2, hL2, hinv2⟩

theorem run_book_updates_track (cid m : String) (L : ℚ) :
    ∀ (rest : List BookUpdate) (e : Engine) (pre : List BookUpdate),
    EngineTrack cid m L pre e →
    EngineTrack cid m L (pre ++ rest) (run_book_updates e rest) := by
  intro rest
  induction rest with
  | nil =>
      intro e pre h
      rw [List.append_nil]
      exact h
  | cons v rest ih =>
      intro e pre h
      have h3 := ih _ _ (engine_track_step cid m L pre v e h)
      rw [show pre ++ v :: rest = (pre ++ [v]) ++ rest from by simp]
      exact h3

/-- C6: from an engine whose tracked order is OPEN with no pending
through-entry, the order can end FILLED only if some update traded through
its limit by at least one tick (TICK_SIZE) and the through condition was
sustained across the market observations for at least SUSTAIN_SEC seconds;
if every update of that market keeps the ask at or above the limit, the
order never becomes FILLED; and every fill emitted by a book update carries
the fill price of its order limit, never the through price. -/
theorem c6_paper_fill_needs_sustained_through
    (e0 : Engine) (trace : List BookUpdate) (cid : String) (o0 : Order)
    (hnd : (e0.orders.map (fun o => o.client_order_id)).Nodup)
    (hfind : findOrder e0 cid = some o0)
    (hopen : o0.status = OrdStatus.OPEN)
    (hpend : lookupPend e0.pending cid = none) :
    (∀ o2, findOrder (run_book_updates e0 trace) cid = some o2 →
        o2.status = OrdStatus.FILLED →
        SustainedThrough o0.market_id o0.limit_price trace) ∧
    ((∀ u ∈ trace, u.market_id = o0.market_id → o0.limit_price ≤ u.best_ask) →
      ∀ o2, findOrder (run_book_updates e0 trace) cid = some o2 →
        o2.status ≠ OrdStatus.FILLED) ∧
    (∀ (e : Engine) (mkt : String) (ask bid tnow : ℚ) (f : Fill),
        f ∈ (process_book_update e mkt ask bid tnow).1 →
        ∃ o, o ∈ e.orders ∧ f.order_id = o.client_order_id ∧
          f.fill_price = o.limit_price) := by
  have hfindL : e0.orders.find? (fun y => y.client_order_id == cid) = some o0 := hfind
  have hbeq := List.find?_some hfindL
  have hcid0 : o0.client_order_id = cid := eq_of_beq hbeq
  have htrack0 : EngineTrack cid o0.market_id o0.limit_price [] e0 :=
    ⟨hnd, o0, hfind, hcid0, rfl, rfl, Or.inl ⟨hopen, Or.inl hpend⟩⟩
  have htrack := run_book_updates_track cid o0.market_id o0.limit_price trace e0 [] htrack0
  rw [List.nil_append] at htrack
  obtain ⟨-, o2t, hfind2, -, -, -, hinv2⟩ := htrack
  have hsust_of_filled : ∀ o2, findOrder (run_book_updates e0 trace) cid = some o2 →
      o2.status = OrdStatus.FILLED →
      SustainedThrough o0.market_id o0.limit_price trace := by
    intro o2 hfo2 hst
    rw [hfind2, Option.some.injEq] at hfo2
    subst hfo2
    rcases hinv2 with ⟨hopen2, -⟩ | ⟨-, hsust⟩
    · rw [hopen2] at hst
      simp at hst
    · exact hsust
  refine ⟨hsust_of_filled, ?_, ?_⟩
  · intro hnever o2 hfo2 hst
    obtain ⟨a, u1, b, u2, c, hdec, ⟨hu1m, hu1a⟩, -, -, -⟩ :=
      hsust_of_filled o2 hfo2 hst
    have hu1mem : u1 ∈ trace := by
      rw [hdec]
      exact List.mem_append_right _ (List.mem_cons_self _ _)
    have hge : o0.limit_price ≤ u1.best_ask := hnever u1 hu1mem hu1m
    rw [TICK_SIZE] at hu1a
    linarith
  · intro e mkt ask bid tnow f hf
    exact process_orders_fills_at_limit mkt ask tnow e.orders e.pending f hf

theorem c6_witness :
    ({ client_order_id := "o1", market_id := "m", side := "YES", size_usd := 10, limit_price := 0.4, decision_id_hex := "d", status := OrdStatus.OPEN, submitted_at := 0, fills := [] } : Order).status ≠
      OrdStatus.FILLED :=
  (c6_paper_fill_needs_sustained_through
      ⟨[], [{ client_order_id := "o1", market_id := "m", side := "YES", size_usd := 10, limit_price := 0.4, decision_id_hex := "d", status := OrdStatus.OPEN, submitted_at := 0, fills := [] }], [], 0⟩
      [] "o1"
      { client_order_id := "o1", market_id := "m", side := "YES", size_usd := 10, limit_price := 0.4, decision_id_hex := "d", status := OrdStatus.OPEN, submitted_at := 0, fills := [] }
      (by simp) (by simp [findOrder, List.find?]) rfl rfl).2.1
    (by simp)
    { client_order_id := "o1", market_id := "m", side := "YES", size_usd := 10, limit_price := 0.4, decision_id_hex := "d", status := OrdStatus.OPEN, submitted_at := 0, fills := [] }
    (by simp [findOrder, List.find?, run_book_updates])

end PolyEdge
